import Mathlib

/-!
Verification of the Device Interaction & Observation Engine of AndSandbox.

Shallow embedding of:
- `Module/AutoExplorer.py` (Exploration Decision Engine),
- `Module/UiChangeMonitor.py` (UI Change Detector),
- `Module/MitmproxyCapture.py` (Network Flow Correlator, i.e. the generated
  mitmproxy script's `request`/`response` hooks),
- `Module/AdbController.py` (UI Fingerprinter, `get_ui_dump_hash`).

Modelling conventions:
- The uiautomator2 device is modelled by the list of UI elements of the
  current dump (`List ElemInfo`, in document order) plus two liveness
  oracles: `aliveInfo el` tells whether `el` still exists when one of the
  unguarded `element.info` reads touches it (the signature read in
  `_perform_action`, AutoExplorer.py line 87, and the per-element reads of
  the handler loops, lines 119, 139, 156-161, 171, 184-198), and
  `aliveAct el` whether it still exists when it is clicked or receives
  text.  An access to a stale element raises `UiObjectNotFoundError`,
  which the embedding threads through as `raised` flags; only the
  exists-check and try/except inside `_perform_action` turn a stale action
  into a plain False return.
- `time.time()` is modelled by a discrete clock value `now : Nat` passed to
  each call; `window_size()` by a screen height `sh : Nat`.
- Python's float threshold `screen_height * 0.85` is modelled by the exact
  rational comparison `17 * sh ≤ 20 * top` (resp. `<`); no claim exercises
  the float rounding of the boundary.
- Python `set` is a `Finset String`; Python string formatting of `None` is
  `pyStr`.
- `hashlib.md5` is an external library function; fingerprint theorems are
  stated for an arbitrary hash function `md5 : String → String` applied to
  the normalized dump (equal normalized dumps give equal hashes for every
  choice of hash), and the counterexample exhibits distinct normalized
  dumps, which the intended low-collision hash maps to distinct digests.
-/

/-! ## Python string helpers -/

/-- Python `f"{x}"` formatting of an optional string: `None` prints as "None". -/
def pyStr : Option String → String
  | none => ("None")
  | some s => s

/-- Substring test on char lists: `p` occurs contiguously in the second list. -/
def listInfix (p : List Char) : List Char → Bool
  | [] => p.isEmpty
  | c :: t => List.isPrefixOf p (c :: t) || listInfix p t

/-- Python `s.find(pat) != -1` / `pat in s`: substring containment. -/
def pyIn (pat s : String) : Bool := listInfix pat.toList s.toList

/-- Python `str.lower()` (ASCII case folding, as used by the `(?i)` regexes). -/
def lowerStr (s : String) : String := ⟨s.toList.map Char.toLower⟩

/-! ## AutoExplorer: data model (`Module/AutoExplorer.py`) -/

/-- Snapshot of a UI element as returned by `element.info` in uiautomator2:
the fields AutoExplorer reads (`className`, `resourceId`, `text`,
`contentDescription`, `packageName`, `clickable`, `bounds["top"]`). -/
structure ElemInfo where
  className : String
  resourceId : Option String
  text : Option String
  contentDescription : Option String
  packageName : Option String
  clickable : Bool
  top : Nat
deriving DecidableEq

/-- `AutoExplorer._get_element_signature`: the f-string
`f"{className}-{resourceId}-{text}-{contentDescription}"`. -/
def sigOf (el : ElemInfo) : String :=
  el.className ++ ("-") ++ pyStr el.resourceId ++ ("-") ++ pyStr el.text
    ++ ("-") ++ pyStr el.contentDescription

/-- `AutoExplorer.INPUT_TEXTS`. -/
def INPUT_TEXTS : List String :=
  [("testuser"), ("123456"), ("test@example.com"), ("My Test Note")]

/-- The alternatives of `AutoExplorer.CONFIRM_KEYWORDS_REGEX`
(`(?i)登录|确定|下一步|完成|同意|搜索|发布|login|ok|next|done|agree|confirm|search|submit`);
Android's `textMatches` full-matches, so an element matches iff its text,
case-folded, equals one of these alternatives. -/
def CONFIRM_KEYWORDS : List String :=
  [("登录"), ("确定"), ("下一步"), ("完成"), ("同意"), ("搜索"), ("发布"),
   ("login"), ("ok"), ("next"), ("done"), ("agree"), ("confirm"),
   ("search"), ("submit")]

/-- `AutoExplorer.BOTTOM_NAV_KEYWORDS`. -/
def BOTTOM_NAV_KEYWORDS : List String :=
  [("首页"), ("钱包"), ("客服"), ("我的"), ("发现"), ("消息"), ("通讯录"),
   ("社区"), ("Home"), ("About"), ("Profile"), ("Wallet"), ("Community"),
   ("Message")]

/-- Selector `resourceIdMatches=r".*permission_allow_button.*"`: a full regex
match of `.*X.*` holds iff the resource id contains `X`; elements without a
resource id do not match. -/
def optContains (o : Option String) (pat : String) : Bool :=
  match o with
  | some r => pyIn pat r
  | none => false

/-- Selector `className="android.widget.EditText"` (exact match). -/
def isEditText (el : ElemInfo) : Bool :=
  el.className == ("android.widget.EditText")

/-- The `_handle_system_popups` selector:
`resourceIdMatches=r".*permission_allow_button.*", clickable=True`. -/
def isPopupMatch (el : ElemInfo) : Bool :=
  optContains el.resourceId ("permission_allow_button") && el.clickable

/-- The `_handle_input_fields` confirm-button selector:
`textMatches=CONFIRM_KEYWORDS_REGEX, clickable=True`. -/
def isConfirmMatch (el : ElemInfo) : Bool :=
  (match el.text with
   | some t => CONFIRM_KEYWORDS.contains (lowerStr t)
   | none => false) && el.clickable

/-- The `_handle_tabs` selector: `classNameMatches=r"(?i).*tab.*",
clickable=True`. -/
def isTabMatch (el : ElemInfo) : Bool :=
  pyIn ("tab") (lowerStr el.className) && el.clickable

/-- Python `el.info.get("text") in BOTTOM_NAV_KEYWORDS` (None is in no list). -/
def textInBottomNav (el : ElemInfo) : Bool :=
  match el.text with
  | some t => BOTTOM_NAV_KEYWORDS.contains t
  | none => false

/-- Elements matched by the `_handle_system_popups` selector, in document
order. -/
def popupMatches (tree : List ElemInfo) : List ElemInfo :=
  tree.filter isPopupMatch

/-- Elements matched by the confirm-button selector, in document order. -/
def confirmMatches (tree : List ElemInfo) : List ElemInfo :=
  tree.filter isConfirmMatch

/-- `ExplorationState`: `visited_elements`, `last_action_time`,
`idle_for_back_press` (the constant 15 in `__init__`). -/
structure ExplorerState where
  visited : Finset String
  lastActionTime : Nat
  idleForBackPress : Nat
deriving DecidableEq

/-- Iteration of a selector's matches as the handler `for` loops perform
it: every iterated element's `info` is read (for its signature, bounds or
class fields) before the handler's own test is evaluated, and these reads
are outside any try/except, so an element stale at info-read time raises
`UiObjectNotFoundError` out of the loop.  Returns the first element
satisfying `p`, `none` when the loop falls through, or an error when an
`info` read raised. -/
def scanFind (aliveInfo : ElemInfo → Bool) (p : ElemInfo → Bool) :
    List ElemInfo → Except Unit (Option ElemInfo)
  | [] => Except.ok none
  | el :: rest =>
    if aliveInfo el then
      if p el then Except.ok (some el) else scanFind aliveInfo p rest
    else Except.error ()

instance {A B : Type} [DecidableEq A] [DecidableEq B] : DecidableEq (Except A B) :=
  fun x y =>
    match x, y with
    | Except.error a, Except.error b =>
      if h : a = b then Decidable.isTrue (by rw [h])
      else Decidable.isFalse (by intro hc; cases hc; exact h rfl)
    | Except.error _, Except.ok _ => Decidable.isFalse (by intro hc; cases hc)
    | Except.ok _, Except.error _ => Decidable.isFalse (by intro hc; cases hc)
    | Except.ok a, Except.ok b =>
      if h : a = b then Decidable.isTrue (by rw [h])
      else Decidable.isFalse (by intro hc; cases hc; exact h rfl)

/-- The `_handle_input_fields` loop (signature reads, AutoExplorer.py line
119): first EditText whose signature is not yet visited. -/
def editScan (s : ExplorerState) (aliveInfo : ElemInfo → Bool)
    (tree : List ElemInfo) : Except Unit (Option ElemInfo) :=
  scanFind aliveInfo (fun el => ! decide (sigOf el ∈ s.visited))
    (tree.filter isEditText)

/-- The `_handle_bottom_navigation` nested loops: keywords in list order;
for each keyword, matching clickable elements in document order; each
iterated element's bounds and signature are `info` reads (lines 156-161);
an element qualifies when its top is not above the bottom 15% band and it
is unvisited. -/
def scanKeywords (s : ExplorerState) (aliveInfo : ElemInfo → Bool) (sh : Nat)
    (tree : List ElemInfo) : List String → Except Unit (Option ElemInfo)
  | [] => Except.ok none
  | k :: ks =>
    match scanFind aliveInfo
        (fun el => decide (17 * sh ≤ 20 * el.top) && ! decide (sigOf el ∈ s.visited))
        (tree.filter (fun el => (el.text == some k) && el.clickable)) with
    | Except.error e => Except.error e
    | Except.ok (some el) => Except.ok (some el)
    | Except.ok none => scanKeywords s aliveInfo sh tree ks

/-- The whole candidate search of `_handle_bottom_navigation`. -/
def bottomNavScan (s : ExplorerState) (aliveInfo : ElemInfo → Bool) (sh : Nat)
    (tree : List ElemInfo) : Except Unit (Option ElemInfo) :=
  scanKeywords s aliveInfo sh tree BOTTOM_NAV_KEYWORDS

/-- The `_handle_tabs` loop (signature reads, line 171): first unvisited
tab-classed clickable. -/
def tabScan (s : ExplorerState) (aliveInfo : ElemInfo → Bool)
    (tree : List ElemInfo) : Except Unit (Option ElemInfo) :=
  scanFind aliveInfo (fun el => ! decide (sigOf el ∈ s.visited))
    (tree.filter isTabMatch)

/-- The `_handle_general_clickables` loop (`info` reads on every iterated
clickable, lines 184-198): first clickable that is not an EditText, not in
the system UI package, not a bottom-nav-labelled element in the bottom
band, and unvisited. -/
def generalScan (s : ExplorerState) (aliveInfo : ElemInfo → Bool) (sh : Nat)
    (tree : List ElemInfo) : Except Unit (Option ElemInfo) :=
  scanFind aliveInfo (fun el =>
      ! isEditText el
      && ! pyIn ("com.android.systemui") (el.packageName.getD (""))
      && ! (textInBottomNav el && decide (17 * sh < 20 * el.top))
      && ! decide (sigOf el ∈ s.visited))
    (tree.filter (fun el => el.clickable))

/-- A primitive UI action issued to the device. -/
inductive DeviceAction where
  | click (el : ElemInfo)
  | setText (el : ElemInfo) (s : String)
  | back
deriving DecidableEq

/-- `action_type` parameter of `_perform_action`. -/
inductive PyActionType where
  | click
  | input
deriving DecidableEq

/-- Result of `_perform_action`: returned boolean, engine state after the
call, actions issued, and whether `UiObjectNotFoundError` escaped it.  The
signature read `element.info` (line 87) sits outside the try/except, so an
element stale at info-read time raises out of `_perform_action`; the
`element.exists` guard and the try/except around the click/set-text turn
an element stale at action time into a plain `False` return instead. -/
structure PARes where
  ok : Bool
  state : ExplorerState
  actions : List DeviceAction
  raised : Bool
deriving DecidableEq

/-- `AutoExplorer._perform_action`. -/
def performAction (s : ExplorerState) (aliveInfo aliveAct : ElemInfo → Bool)
    (now : Nat) (el : ElemInfo) (ty : PyActionType) (txt : Option String) : PARes :=
  if aliveInfo el then
    if sigOf el ∈ s.visited then ⟨false, s, [], false⟩
    else if aliveAct el then
      let acts : List DeviceAction :=
        match ty with
        | PyActionType.click => [DeviceAction.click el]
        | PyActionType.input =>
          match txt with
          | some t => if t = ("") then [] else [DeviceAction.setText el t]
          | none => []
      ⟨true, { s with visited := insert (sigOf el) s.visited, lastActionTime := now }, acts, false⟩
    else ⟨false, s, [], false⟩
  else ⟨false, s, [], true⟩

/-- Result of one handler: whether it returned True (fired), state, actions
issued, and whether a `UiObjectNotFoundError` escaped it. -/
structure HRes where
  fired : Bool
  state : ExplorerState
  actions : List DeviceAction
  raised : Bool
deriving DecidableEq

/-- `AutoExplorer._handle_system_popups`: clicks the first selector match
if any exists; the click itself (line 113) is outside any try/except, so a
match stale at action time raises. -/
def handleSystemPopups (s : ExplorerState) (aliveAct : ElemInfo → Bool)
    (tree : List ElemInfo) : HRes :=
  match popupMatches tree with
  | [] => ⟨false, s, [], false⟩
  | m :: _ =>
    if aliveAct m then ⟨true, s, [DeviceAction.click m], false⟩
    else ⟨false, s, [], true⟩

/-- `AutoExplorer._handle_input_fields`: scans the EditTexts (signature
reads, line 119), focuses the found field with a bare `el.click()` (line
127, raises when stale at action time), sets its text via
`_perform_action` (whose own raise propagates), then reads the first
confirm-button match's info for the log line (line 139) and clicks it
(line 141) — both unguarded.  The log line's second `el.info` reads (line
121) re-query the element the scan just read successfully and are subsumed
by the scan's `aliveInfo` check. -/
def handleInputFields (s : ExplorerState) (aliveInfo aliveAct : ElemInfo → Bool)
    (now : Nat) (tree : List ElemInfo) : HRes :=
  match editScan s aliveInfo tree with
  | Except.error _ => ⟨false, s, [], true⟩
  | Except.ok none => ⟨false, s, [], false⟩
  | Except.ok (some el) =>
    let txt := INPUT_TEXTS.getD (s.visited.card % INPUT_TEXTS.length) ("")
    if aliveAct el then
      let pa := performAction s aliveInfo aliveAct now el PyActionType.input (some txt)
      if pa.raised then ⟨false, pa.state, DeviceAction.click el :: pa.actions, true⟩
      else
        match confirmMatches tree with
        | [] => ⟨true, pa.state, DeviceAction.click el :: pa.actions, false⟩
        | c :: _ =>
          if aliveInfo c then
            if aliveAct c then
              ⟨true, pa.state, DeviceAction.click el :: pa.actions ++ [DeviceAction.click c], false⟩
            else ⟨false, pa.state, DeviceAction.click el :: pa.actions, true⟩
          else ⟨false, pa.state, DeviceAction.click el :: pa.actions, true⟩
    else ⟨false, s, [], true⟩

/-- `AutoExplorer._handle_bottom_navigation`: the nested keyword/element
scan, then `_perform_action` on the candidate — its boolean result is
ignored, but an escaping `UiObjectNotFoundError` propagates; returns True
whenever a qualifying element was found and nothing raised. -/
def handleBottomNav (s : ExplorerState) (aliveInfo aliveAct : ElemInfo → Bool)
    (now sh : Nat) (tree : List ElemInfo) : HRes :=
  match bottomNavScan s aliveInfo sh tree with
  | Except.error _ => ⟨false, s, [], true⟩
  | Except.ok none => ⟨false, s, [], false⟩
  | Except.ok (some el) =>
    let pa := performAction s aliveInfo aliveAct now el PyActionType.click none
    if pa.raised then ⟨false, pa.state, pa.actions, true⟩
    else ⟨true, pa.state, pa.actions, false⟩

/-- `AutoExplorer._handle_tabs`. -/
def handleTabs (s : ExplorerState) (aliveInfo aliveAct : ElemInfo → Bool)
    (now : Nat) (tree : List ElemInfo) : HRes :=
  match tabScan s aliveInfo tree with
  | Except.error _ => ⟨false, s, [], true⟩
  | Except.ok none => ⟨false, s, [], false⟩
  | Except.ok (some el) =>
    let pa := performAction s aliveInfo aliveAct now el PyActionType.click none
    if pa.raised then ⟨false, pa.state, pa.actions, true⟩
    else ⟨true, pa.state, pa.actions, false⟩

/-- `AutoExplorer._handle_general_clickables`. -/
def handleGeneralClickables (s : ExplorerState) (aliveInfo aliveAct : ElemInfo → Bool)
    (now sh : Nat) (tree : List ElemInfo) : HRes :=
  match generalScan s aliveInfo sh tree with
  | Except.error _ => ⟨false, s, [], true⟩
  | Except.ok none => ⟨false, s, [], false⟩
  | Except.ok (some el) =>
    let pa := performAction s aliveInfo aliveAct now el PyActionType.click none
    if pa.raised then ⟨false, pa.state, pa.actions, true⟩
    else ⟨true, pa.state, pa.actions, false⟩

/-- Result of `AutoExplorer.explore_step`: final state, actions issued, the
Python return value (`ret`, which is `None` on every non-raising path —
every exit is a bare `return` or falling off the end), and whether a
`UiObjectNotFoundError` escaped the call. -/
structure StepResult where
  state : ExplorerState
  actions : List DeviceAction
  ret : Option Bool
  raised : Bool
deriving DecidableEq

/-- `AutoExplorer.explore_step`: tries the six handlers in priority order;
a raising handler propagates its exception out of the call; the first
handler that returns True ends the call; if none fired and the idle
threshold is exceeded, presses back, refreshes `last_action_time` and
clears `visited_elements`. -/
def explore_step (s : ExplorerState) (aliveInfo aliveAct : ElemInfo → Bool)
    (now sh : Nat) (tree : List ElemInfo) : StepResult :=
  let r1 := handleSystemPopups s aliveAct tree
  if r1.raised then ⟨r1.state, r1.actions, none, true⟩
  else if r1.fired then ⟨r1.state, r1.actions, none, false⟩
  else
    let r2 := handleInputFields s aliveInfo aliveAct now tree
    if r2.raised then ⟨r2.state, r2.actions, none, true⟩
    else if r2.fired then ⟨r2.state, r2.actions, none, false⟩
    else
      let r3 := handleBottomNav s aliveInfo aliveAct now sh tree
      if r3.raised then ⟨r3.state, r3.actions, none, true⟩
      else if r3.fired then ⟨r3.state, r3.actions, none, false⟩
      else
        let r4 := handleTabs s aliveInfo aliveAct now tree
        if r4.raised then ⟨r4.state, r4.actions, none, true⟩
        else if r4.fired then ⟨r4.state, r4.actions, none, false⟩
        else
          let r5 := handleGeneralClickables s aliveInfo aliveAct now sh tree
          if r5.raised then ⟨r5.state, r5.actions, none, true⟩
          else if r5.fired then ⟨r5.state, r5.actions, none, false⟩
          else if s.idleForBackPress < now - s.lastActionTime then
            ⟨⟨∅, now, s.idleForBackPress⟩, [DeviceAction.back], none, false⟩
          else ⟨s, [], none, false⟩

/-! ## UiChangeMonitor (`Module/UiChangeMonitor.py`) -/

/-- Monitor state: `last_ui_hash` and `screenshot_paths` (paths abstracted
to their trigger labels; the time-of-day suffix of the filename is not
modelled). -/
structure MonState where
  lastUiHash : Option String
  screenshots : List String
deriving DecidableEq

/-- `UiChangeMonitor._take_screenshot_if_needed`: appends the path only when
`controller.take_screenshot` reports success (`ok`). -/
def takeScreenshotIfNeeded (name : String) (ok : Bool) (st : MonState) : MonState :=
  if ok then { st with screenshots := st.screenshots ++ [name] } else st

/-- One iteration of the `while` body of `UiChangeMonitor._monitor_loop`:
`hash` is the result of `get_ui_dump_hash` (`none` = Python `None`; the
empty string is also falsy and modelled faithfully), `ok` whether the
screenshot capture would succeed.  On a changed, truthy hash it captures
(label `change_{len(screenshot_paths)}`) and then unconditionally stores
the new hash. -/
def monitorTick (st : MonState) (hash : Option String) (ok : Bool) : MonState :=
  match hash with
  | none => st
  | some h =>
    if h = ("") then st
    else if some h ≠ st.lastUiHash then
      let st' := takeScreenshotIfNeeded (("change_") ++ toString st.screenshots.length) ok st
      { st' with lastUiHash := some h }
    else st

/-- `UiChangeMonitor._monitor_loop` run over a finite schedule of ticks:
first the unconditional "initial" screenshot, then one `monitorTick` per
poll.  `interval` only controls the sleep between polls and is otherwise
unobservable. -/
def monitorRun (interval : Nat) (initOk : Bool)
    (ticks : List (Option String × Bool)) : MonState :=
  let _ := interval
  ticks.foldl (fun st t => monitorTick st t.1 t.2)
    (takeScreenshotIfNeeded ("initial") initOk ⟨none, []⟩)

/-! ## MitmproxyCapture: the generated mitm script
(`MitmproxyCapture._create_mitm_script`) -/

/-- The request fields the script records. -/
structure MitmRequest where
  method : String
  url : String
  host : String
  headers : List (String × String)
deriving DecidableEq

/-- The `response` half of a flow entry once resolved: either the recorded
`{status_code, headers, content}` dict (when `flow.response` is truthy) or
the `{"status": "No response received"}` marker. -/
inductive RespData where
  | data (status : Nat) (headers : List (String × String)) (content : String)
  | noResponse
deriving DecidableEq

/-- One element of the script's global `flows` list:
`{"request": ..., "response": None | ...}`. -/
structure FlowEntry where
  request : MitmRequest
  response : Option RespData
deriving DecidableEq

/-- What the response hook reads off a truthy `flow.response`:
`status_code`, `headers`, and the outcome of the content-decoding
expression `flow.response.text or base64.b64decode(...).decode(...)`:
`text` is `flow.response.text` (`none` = Python `None`), `fallback` is the
base64 fallback (`none` = the expression raised, caught by the
`except`). -/
structure RespPayload where
  status : Nat
  headers : List (String × String)
  text : Option String
  fallback : Option String
deriving DecidableEq

/-- The `content = flow.response.text or base64...` / `except: "[Decode
Error]"` logic: a falsy text (`None` or `""`) falls back to the base64
decode, and a raising decode yields the error marker. -/
def computeContent (text fallback : Option String) : String :=
  if text.getD ("") ≠ ("") then text.getD ("")
  else match fallback with
       | some s => s
       | none => ("[Decode Error]")

/-- Builds the recorded response value from `flow.response`. -/
def mkRespData : Option RespPayload → RespData
  | none => RespData.noResponse
  | some p => RespData.data p.status p.headers (computeContent p.text p.fallback)

/-- The infrastructure-domain exclusion `flow.request.host.find("ldmnq.com")
!= -1` applied in both hooks. -/
def excludedHost (host : String) : Bool := pyIn ("ldmnq.com") host

/-- The script's `request` hook: drop excluded hosts, otherwise append a
pending record. -/
def mitmRequestHook (r : MitmRequest) (flows : List FlowEntry) : List FlowEntry :=
  if excludedHost r.host then flows else flows ++ [⟨r, none⟩]

/-- The scan-and-update loop of the `response` hook: resolve the first
record whose request URL equals the responding flow's URL and whose
response is still pending, leaving every other record untouched. -/
def resolveFirst (url : String) (rd : RespData) : List FlowEntry → List FlowEntry
  | [] => []
  | e :: t =>
    if e.request.url == url && e.response.isNone then ⟨e.request, some rd⟩ :: t
    else e :: resolveFirst url rd t

/-- The script's `response` hook: `url`/`host` are
`flow.request.pretty_url`/`flow.request.host` of the responding flow. -/
def mitmResponseHook (url host : String) (payload : Option RespPayload)
    (flows : List FlowEntry) : List FlowEntry :=
  if excludedHost host then flows else resolveFirst url (mkRespData payload) flows

/-- One pushed interception event. -/
inductive MitmEvent where
  | req (r : MitmRequest)
  | resp (url host : String) (payload : Option RespPayload)
deriving DecidableEq

/-- Dispatch of one event to the corresponding hook. -/
def mitmProcessEvent (flows : List FlowEntry) : MitmEvent → List FlowEntry
  | MitmEvent.req r => mitmRequestHook r flows
  | MitmEvent.resp u h p => mitmResponseHook u h p flows

/-- The `flows` list after a whole event stream, starting from the empty
list the script initializes. -/
def mitmProcessEvents (events : List MitmEvent) : List FlowEntry :=
  events.foldl mitmProcessEvent []

/-! ## UI Fingerprinter (`AdbController.get_ui_dump_hash`)

The two normalization passes
`re.sub(r'text="\d{1,2}:\d{2}"', "", xml)` and
`re.sub(r'content-desc=".*?"', "", xml)` are embedded as left-to-right,
non-overlapping scan-and-delete functions over the character list, with the
regexes' exact matching semantics (greedy `\d{1,2}` with backtracking,
non-greedy `.*?` stopping at the first quote and refusing newlines). -/

/-- The double-quote character (written via its code point). -/
def dq : Char := Char.ofNat 34

/-- Match a literal character sequence at the head of the input, returning
the rest. -/
def dropLit : List Char → List Char → Option (List Char)
  | [], l => some l
  | _ :: _, [] => none
  | p :: ps, c :: cs => if c = p then dropLit ps cs else none

/-- The literal prefix of the clock regex: `text="`. -/
def clockLit : List Char := 't' :: 'e' :: 'x' :: 't' :: '=' :: dq :: []

/-- Match `:\d{2}"` — the fixed tail of the clock regex. -/
def matchColonDD : List Char → Option (List Char)
  | c1 :: c2 :: c3 :: c4 :: rest =>
    if c1 = ':' ∧ c2.isDigit = true ∧ c3.isDigit = true ∧ c4 = dq then some rest
    else none
  | _ => none

/-- Match `\d{1,2}:\d{2}"` after the literal prefix: greedy two-digit hour
first, falling back to one digit exactly as the regex engine backtracks. -/
def matchClockTail : List Char → Option (List Char)
  | [] => none
  | d1 :: l1 =>
    if d1.isDigit = true then
      match l1 with
      | [] => none
      | d2 :: l2 =>
        if d2.isDigit = true then
          match matchColonDD l2 with
          | some r => some r
          | none => matchColonDD l1
        else matchColonDD l1
    else none

/-- Try to match `text="\d{1,2}:\d{2}"` at the head of the input. -/
def tryMatchClock (l : List Char) : Option (List Char) :=
  match dropLit clockLit l with
  | some r => matchClockTail r
  | none => none

/-- The literal prefix of the description regex: `content-desc="`. -/
def descLit : List Char :=
  'c' :: 'o' :: 'n' :: 't' :: 'e' :: 'n' :: 't' :: '-' :: 'd' :: 'e' :: 's'
    :: 'c' :: '=' :: dq :: []

/-- Non-greedy `.*?"`: consume up to the first closing quote; `.` does not
match a newline, so a newline before the quote fails the match. -/
def matchDescValue : List Char → Option (List Char)
  | [] => none
  | c :: rest =>
    if c = dq then some rest
    else if c = '\n' then none
    else matchDescValue rest

/-- Try to match `content-desc=".*?"` at the head of the input. -/
def tryMatchDesc (l : List Char) : Option (List Char) :=
  match dropLit descLit l with
  | some r => matchDescValue r
  | none => none

/-- Fuelled scan of `re.sub(r'text="\d{1,2}:\d{2}"', "", ·)`: at each
position, delete a match and continue after it, else emit the character. -/
def subClockF : Nat → List Char → List Char
  | _, [] => []
  | 0, l => l
  | fuel + 1, c :: rest =>
    match tryMatchClock (c :: rest) with
    | some r => subClockF fuel r
    | none => c :: subClockF fuel rest

/-- Fuelled scan of `re.sub(r'content-desc=".*?"', "", ·)`. -/
def subDescF : Nat → List Char → List Char
  | _, [] => []
  | 0, l => l
  | fuel + 1, c :: rest =>
    match tryMatchDesc (c :: rest) with
    | some r => subDescF fuel r
    | none => c :: subDescF fuel rest

/-- First normalization pass (the fuel `l.length` is always sufficient:
every step strictly shrinks the list). -/
def subClock (l : List Char) : List Char := subClockF l.length l

/-- Second normalization pass. -/
def subDesc (l : List Char) : List Char := subDescF l.length l

/-- The normalization performed by `get_ui_dump_hash` before hashing:
strip `text="H:MM"`/`text="HH:MM"` attributes, then `content-desc="..."`
attributes. -/
def normalizeUiDump (s : String) : String := ⟨subDesc (subClock s.toList)⟩

/-- `AdbController.get_ui_dump_hash` on a successfully fetched dump, for an
arbitrary digest function standing for `hashlib.md5(...).hexdigest()`. -/
def get_ui_dump_hash (md5 : String → String) (xml : String) : String :=
  md5 (normalizeUiDump xml)

/-- Characters that can occur inside a `text="\d{1,2}:\d{2}"` match: the
characters of the literal `text="`, a digit, or the colon. -/
def clockChar (c : Char) : Prop :=
  c = 't' ∨ c = 'e' ∨ c = 'x' ∨ c = '=' ∨ c = dq ∨ c = ':' ∨ c.isDigit = true

instance (c : Char) : Decidable (clockChar c) :=
  inferInstanceAs (Decidable (c = 't' ∨ c = 'e' ∨ c = 'x' ∨ c = '=' ∨ c = dq
    ∨ c = ':' ∨ c.isDigit = true))

/-- Contexts that end safely for the clock pass: empty, or ending in a
character that no clock-regex match can contain (such as the space before
an attribute name in a uiautomator dump).  No clock match can then start
inside the context and extend past its end, so the pass factors over the
boundary. -/
def SafePre (pre : List Char) : Prop :=
  pre = [] ∨ ∃ p0 sep, ¬ clockChar sep ∧ pre = p0 ++ [sep]

/-- A whole `text="v"` attribute: literal prefix, value, closing quote. -/
def clockAttr (v : List Char) : List Char := clockLit ++ v ++ [dq]

/-- A whole `content-desc="v"` attribute (`descLit` already ends with the
opening quote). -/
def descAttr (v : List Char) : List Char := descLit ++ v ++ [dq]

/-- Description values for which the `content-desc=".*?"` regex deletes the
whole attribute without interference from the clock pass: no quote, no
newline, and no equals sign (so no `text="` can be assembled inside the
value). -/
def goodDescChar (c : Char) : Prop := ¬ c = dq ∧ ¬ c = '\n' ∧ ¬ c = '='

instance (c : Char) : Decidable (goodDescChar c) :=
  inferInstanceAs (Decidable (¬ c = dq ∧ ¬ c = '\n' ∧ ¬ c = '='))

/-! ## Concrete fixtures used by witnesses and counterexamples -/

/-- A text-input field (`android.widget.EditText`), as dumped. -/
def editEl : ElemInfo :=
  ⟨("android.widget.EditText"), some ("field_user"), none, none,
   some ("com.app"), false, 100⟩

/-- A clickable confirm button with text "OK". -/
def okBtn : ElemInfo :=
  ⟨("android.widget.Button"), some ("btn_ok"), some ("OK"), none,
   some ("com.app"), true, 200⟩

/-- A clickable system permission-popup allow button. -/
def allowBtn : ElemInfo :=
  ⟨("android.widget.Button"),
   some ("com.android.permissioncontroller:id/permission_allow_button"),
   some ("Allow"), none, some ("com.android.permissioncontroller"), true, 300⟩

/-- The engine state right after `__init__` (clock normalized to 0). -/
def s0 : ExplorerState := ⟨∅, 0, 15⟩

/-- Request R1 to url A. -/
def R1 : MitmRequest := ⟨("GET"), ("A"), ("example.com"), []⟩

/-- Request R2 to url B. -/
def R2 : MitmRequest := ⟨("GET"), ("B"), ("other.org"), []⟩

/-- Response payload for R2. -/
def pB : RespPayload := ⟨200, [], some ("okB"), none⟩

/-- Response payload for R1. -/
def pA : RespPayload := ⟨404, [], some ("okA"), none⟩

/-- A request to the excluded infrastructure domain. -/
def rex : MitmRequest :=
  ⟨("GET"), ("http://x.ldmnq.com/a"), ("x.ldmnq.com"), []⟩

/-! ## Helper lemmas: AutoExplorer -/

theorem ite_len_le (c : Prop) [inst : Decidable c] (x y : StepResult) (k : Nat)
    (hx : x.actions.length ≤ k) (hy : y.actions.length ≤ k) :
    (if c then x else y).actions.length ≤ k := by
  split_ifs <;> assumption

theorem ite_ret_none (c : Prop) [inst : Decidable c] (x y : StepResult)
    (hx : x.ret = none) (hy : y.ret = none) : (if c then x else y).ret = none := by
  split_ifs <;> assumption

theorem performAction_info_raise (s : ExplorerState) (aliveInfo aliveAct : ElemInfo → Bool)
    (now : Nat) (el : ElemInfo) (ty : PyActionType) (txt : Option String)
    (h : aliveInfo el = false) :
    performAction s aliveInfo aliveAct now el ty txt = ⟨false, s, [], true⟩ := by
  simp [performAction, h]

theorem performAction_noop (s : ExplorerState) (aliveInfo aliveAct : ElemInfo → Bool)
    (now : Nat) (el : ElemInfo) (ty : PyActionType) (txt : Option String)
    (hinfo : aliveInfo el = true) (hact : aliveAct el = false) :
    performAction s aliveInfo aliveAct now el ty txt = ⟨false, s, [], false⟩ := by
  simp [performAction, hinfo, hact]

theorem performAction_ok (s : ExplorerState) (aliveInfo aliveAct : ElemInfo → Bool)
    (now : Nat) (el : ElemInfo) (ty : PyActionType) (txt : Option String)
    (h : (performAction s aliveInfo aliveAct now el ty txt).ok = true) :
    (performAction s aliveInfo aliveAct now el ty txt).state.lastActionTime = now ∧
      sigOf el ∈ (performAction s aliveInfo aliveAct now el ty txt).state.visited := by
  unfold performAction at h ⊢
  split_ifs at h ⊢ with h1 h2 h3 <;> simp_all

theorem performAction_len (s : ExplorerState) (aliveInfo aliveAct : ElemInfo → Bool)
    (now : Nat) (el : ElemInfo) (ty : PyActionType) (txt : Option String) :
    (performAction s aliveInfo aliveAct now el ty txt).actions.length ≤ 1 := by
  unfold performAction
  split_ifs with h1 h2 h3
  · simp
  · cases ty with
    | click => simp
    | input =>
      cases txt with
      | none => simp
      | some t => by_cases ht : t = ("") <;> simp [ht]
  · simp
  · simp

theorem hsp_none (s : ExplorerState) (aliveAct : ElemInfo → Bool) (tree : List ElemInfo)
    (h : popupMatches tree = []) :
    handleSystemPopups s aliveAct tree = ⟨false, s, [], false⟩ := by
  unfold handleSystemPopups
  rw [h]

theorem hsp_fires (s : ExplorerState) (aliveAct : ElemInfo → Bool) (tree : List ElemInfo)
    (m : ElemInfo) (ms : List ElemInfo) (hpop : popupMatches tree = m :: ms)
    (halive : aliveAct m = true) :
    handleSystemPopups s aliveAct tree = ⟨true, s, [DeviceAction.click m], false⟩ := by
  unfold handleSystemPopups
  rw [hpop]
  simp [halive]

theorem hsp_len (s : ExplorerState) (aliveAct : ElemInfo → Bool) (tree : List ElemInfo) :
    (handleSystemPopups s aliveAct tree).actions.length ≤ 1 := by
  unfold handleSystemPopups
  cases popupMatches tree with
  | nil => simp
  | cons m ms => by_cases h : aliveAct m <;> simp [h]

theorem hif_none (s : ExplorerState) (aliveInfo aliveAct : ElemInfo → Bool) (now : Nat)
    (tree : List ElemInfo) (h : editScan s aliveInfo tree = Except.ok none) :
    handleInputFields s aliveInfo aliveAct now tree = ⟨false, s, [], false⟩ := by
  unfold handleInputFields
  rw [h]

theorem hif_raise (s : ExplorerState) (aliveInfo aliveAct : ElemInfo → Bool) (now : Nat)
    (tree : List ElemInfo) (h : editScan s aliveInfo tree = Except.error ()) :
    handleInputFields s aliveInfo aliveAct now tree = ⟨false, s, [], true⟩ := by
  unfold handleInputFields
  rw [h]

theorem hif_len (s : ExplorerState) (aliveInfo aliveAct : ElemInfo → Bool) (now : Nat)
    (tree : List ElemInfo) :
    (handleInputFields s aliveInfo aliveAct now tree).actions.length ≤ 3 := by
  unfold handleInputFields
  cases hsc : editScan s aliveInfo tree with
  | error e => simp
  | ok opt =>
    cases opt with
    | none => simp
    | some el =>
      by_cases hel : aliveAct el
      · simp only [hel, if_true]
        generalize hg : performAction s aliveInfo aliveAct now el PyActionType.input
          (some (INPUT_TEXTS.getD (s.visited.card % INPUT_TEXTS.length) (""))) = pa
        have hp : pa.actions.length ≤ 1 :=
          hg ▸ performAction_len s aliveInfo aliveAct now el PyActionType.input
            (some (INPUT_TEXTS.getD (s.visited.card % INPUT_TEXTS.length) ("")))
        by_cases hr : pa.raised
        · simp [hr]
          omega
        · cases hcm : confirmMatches tree with
          | nil =>
            simp [hr]
            omega
          | cons c cs =>
            by_cases hic : aliveInfo c
            · by_cases hac : aliveAct c
              · simp [hr, hic, hac]
                omega
              · simp [hr, hic, hac]
                omega
            · simp [hr, hic]
              omega
      · simp [hel]

theorem hbn_none (s : ExplorerState) (aliveInfo aliveAct : ElemInfo → Bool) (now sh : Nat)
    (tree : List ElemInfo) (h : bottomNavScan s aliveInfo sh tree = Except.ok none) :
    handleBottomNav s aliveInfo aliveAct now sh tree = ⟨false, s, [], false⟩ := by
  unfold handleBottomNav
  rw [h]

theorem htb_none (s : ExplorerState) (aliveInfo aliveAct : ElemInfo → Bool) (now : Nat)
    (tree : List ElemInfo) (h : tabScan s aliveInfo tree = Except.ok none) :
    handleTabs s aliveInfo aliveAct now tree = ⟨false, s, [], false⟩ := by
  unfold handleTabs
  rw [h]

theorem hgc_none (s : ExplorerState) (aliveInfo aliveAct : ElemInfo → Bool) (now sh : Nat)
    (tree : List ElemInfo) (h : generalScan s aliveInfo sh tree = Except.ok none) :
    handleGeneralClickables s aliveInfo aliveAct now sh tree = ⟨false, s, [], false⟩ := by
  unfold handleGeneralClickables
  rw [h]

theorem hbn_len (s : ExplorerState) (aliveInfo aliveAct : ElemInfo → Bool) (now sh : Nat)
    (tree : List ElemInfo) :
    (handleBottomNav s aliveInfo aliveAct now sh tree).actions.length ≤ 1 := by
  unfold handleBottomNav
  cases bottomNavScan s aliveInfo sh tree with
  | error e => simp
  | ok opt =>
    cases opt with
    | none => simp
    | some el =>
      by_cases hr : (performAction s aliveInfo aliveAct now el PyActionType.click none).raised <;>
        simp [hr] <;>
          exact performAction_len s aliveInfo aliveAct now el PyActionType.click none

theorem htb_len (s : ExplorerState) (aliveInfo aliveAct : ElemInfo → Bool) (now : Nat)
    (tree : List ElemInfo) :
    (handleTabs s aliveInfo aliveAct now tree).actions.length ≤ 1 := by
  unfold handleTabs
  cases tabScan s aliveInfo tree with
  | error e => simp
  | ok opt =>
    cases opt with
    | none => simp
    | some el =>
      by_cases hr : (performAction s aliveInfo aliveAct now el PyActionType.click none).raised <;>
        simp [hr] <;>
          exact performAction_len s aliveInfo aliveAct now el PyActionType.click none

theorem hgc_len (s : ExplorerState) (aliveInfo aliveAct : ElemInfo → Bool) (now sh : Nat)
    (tree : List ElemInfo) :
    (handleGeneralClickables s aliveInfo aliveAct now sh tree).actions.length ≤ 1 := by
  unfold handleGeneralClickables
  cases generalScan s aliveInfo sh tree with
  | error e => simp
  | ok opt =>
    cases opt with
    | none => simp
    | some el =>
      by_cases hr : (performAction s aliveInfo aliveAct now el PyActionType.click none).raised <;>
        simp [hr] <;>
          exact performAction_len s aliveInfo aliveAct now el PyActionType.click none

theorem step_popup (s : ExplorerState) (aliveInfo aliveAct : ElemInfo → Bool) (now sh : Nat)
    (tree : List ElemInfo) (m : ElemInfo) (ms : List ElemInfo)
    (hpop : popupMatches tree = m :: ms) (halive : aliveAct m = true) :
    explore_step s aliveInfo aliveAct now sh tree = ⟨s, [DeviceAction.click m], none, false⟩ := by
  simp only [explore_step]
  rw [hsp_fires s aliveAct tree m ms hpop halive]
  simp

theorem step_idle (s : ExplorerState) (aliveInfo aliveAct : ElemInfo → Bool) (now sh : Nat)
    (tree : List ElemInfo) (h1 : popupMatches tree = [])
    (h2 : editScan s aliveInfo tree = Except.ok none)
    (h3 : bottomNavScan s aliveInfo sh tree = Except.ok none)
    (h4 : tabScan s aliveInfo tree = Except.ok none)
    (h5 : generalScan s aliveInfo sh tree = Except.ok none)
    (hidle : s.idleForBackPress < now - s.lastActionTime) :
    explore_step s aliveInfo aliveAct now sh tree =
      ⟨⟨∅, now, s.idleForBackPress⟩, [DeviceAction.back], none, false⟩ := by
  simp only [explore_step]
  rw [hsp_none s aliveAct tree h1, hif_none s aliveInfo aliveAct now tree h2,
    hbn_none s aliveInfo aliveAct now sh tree h3, htb_none s aliveInfo aliveAct now tree h4,
    hgc_none s aliveInfo aliveAct now sh tree h5]
  simp [hidle]

theorem step_raise_input (s : ExplorerState) (aliveInfo aliveAct : ElemInfo → Bool)
    (now sh : Nat) (tree : List ElemInfo) (h1 : popupMatches tree = [])
    (h2 : editScan s aliveInfo tree = Except.error ()) :
    (explore_step s aliveInfo aliveAct now sh tree).raised = true := by
  simp only [explore_step]
  rw [hsp_none s aliveAct tree h1, hif_raise s aliveInfo aliveAct now tree h2]
  simp

/-! ## Claim C1 -/

/-- Claim C1 counterexample: on a tree holding an unvisited input field and a
clickable "OK" confirm button, a single `explore_step` call issues three UI
actions (focus click on the field, set-text, click on the confirm button),
not at most one; and its Python return value is `None`, not an indicator of
whether an action occurred. -/
theorem explore_step_input_performs_three_actions :
    (explore_step s0 (fun _ => true) (fun _ => true) 5 1000 [editEl, okBtn]).actions
      = [DeviceAction.click editEl, DeviceAction.setText editEl ("testuser"),
         DeviceAction.click okBtn] ∧
    (explore_step s0 (fun _ => true) (fun _ => true) 5 1000 [editEl, okBtn]).ret = none := by
  constructor
  · decide
  · decide

/-- Claim C1 (amended): each `explore_step` call runs at most one handler,
issuing at most three primitive UI actions in total — at most one unless the
input-field handler fires (it may focus-click, set text and click a confirm
button) — and the call always returns `None` rather than a did-act
indicator. -/
theorem explore_step_action_bound (s : ExplorerState)
    (aliveInfo aliveAct : ElemInfo → Bool) (now sh : Nat) (tree : List ElemInfo) :
    (explore_step s aliveInfo aliveAct now sh tree).actions.length ≤ 3 ∧
    (explore_step s aliveInfo aliveAct now sh tree).ret = none ∧
    (editScan s aliveInfo tree = Except.ok none →
      (explore_step s aliveInfo aliveAct now sh tree).actions.length ≤ 1) := by
  refine ⟨?_, ?_, ?_⟩
  · have l1 := hsp_len s aliveAct tree
    have l2 := hif_len s aliveInfo aliveAct now tree
    have l3 := hbn_len s aliveInfo aliveAct now sh tree
    have l4 := htb_len s aliveInfo aliveAct now tree
    have l5 := hgc_len s aliveInfo aliveAct now sh tree
    unfold explore_step
    generalize hg1 : handleSystemPopups s aliveAct tree = r1
    generalize hg2 : handleInputFields s aliveInfo aliveAct now tree = r2
    generalize hg3 : handleBottomNav s aliveInfo aliveAct now sh tree = r3
    generalize hg4 : handleTabs s aliveInfo aliveAct now tree = r4
    generalize hg5 : handleGeneralClickables s aliveInfo aliveAct now sh tree = r5
    rw [hg1] at l1
    rw [hg2] at l2
    rw [hg3] at l3
    rw [hg4] at l4
    rw [hg5] at l5
    clear hg1 hg2 hg3 hg4 hg5
    exact ite_len_le _ _ _ _ (le_trans l1 (by omega))
      (ite_len_le _ _ _ _ (le_trans l1 (by omega))
        (ite_len_le _ _ _ _ l2
          (ite_len_le _ _ _ _ l2
            (ite_len_le _ _ _ _ (le_trans l3 (by omega))
              (ite_len_le _ _ _ _ (le_trans l3 (by omega))
                (ite_len_le _ _ _ _ (le_trans l4 (by omega))
                  (ite_len_le _ _ _ _ (le_trans l4 (by omega))
                    (ite_len_le _ _ _ _ (le_trans l5 (by omega))
                      (ite_len_le _ _ _ _ (le_trans l5 (by omega))
                        (ite_len_le _ _ _ _ (by simp) (by simp)))))))))))
  · unfold explore_step
    exact ite_ret_none _ _ _ rfl
      (ite_ret_none _ _ _ rfl
        (ite_ret_none _ _ _ rfl
          (ite_ret_none _ _ _ rfl
            (ite_ret_none _ _ _ rfl
              (ite_ret_none _ _ _ rfl
                (ite_ret_none _ _ _ rfl
                  (ite_ret_none _ _ _ rfl
                    (ite_ret_none _ _ _ rfl
                      (ite_ret_none _ _ _ rfl
                        (ite_ret_none _ _ _ rfl rfl))))))))))
  · intro h
    have l1 := hsp_len s aliveAct tree
    have l3 := hbn_len s aliveInfo aliveAct now sh tree
    have l4 := htb_len s aliveInfo aliveAct now tree
    have l5 := hgc_len s aliveInfo aliveAct now sh tree
    unfold explore_step
    rw [hif_none s aliveInfo aliveAct now tree h]
    generalize hg1 : handleSystemPopups s aliveAct tree = r1
    generalize hg3 : handleBottomNav s aliveInfo aliveAct now sh tree = r3
    generalize hg4 : handleTabs s aliveInfo aliveAct now tree = r4
    generalize hg5 : handleGeneralClickables s aliveInfo aliveAct now sh tree = r5
    rw [hg1] at l1
    rw [hg3] at l3
    rw [hg4] at l4
    rw [hg5] at l5
    clear hg1 hg3 hg4 hg5
    exact ite_len_le _ _ _ _ l1
      (ite_len_le _ _ _ _ l1
        (ite_len_le _ _ _ _ (by simp)
          (ite_len_le _ _ _ _ (by simp)
            (ite_len_le _ _ _ _ l3
              (ite_len_le _ _ _ _ l3
                (ite_len_le _ _ _ _ l4
                  (ite_len_le _ _ _ _ l4
                    (ite_len_le _ _ _ _ l5
                      (ite_len_le _ _ _ _ l5
                        (ite_len_le _ _ _ _ (by simp) (by simp)))))))))))

/-- Claim C1 witness: on an empty tree (no input field) the action bound of
one degenerates further; the amended theorem applies with its hypothesis
discharged concretely. -/
theorem explore_step_action_bound_witness :
    (explore_step s0 (fun _ => true) (fun _ => true) 3 1000 []).actions.length ≤ 1 :=
  (explore_step_action_bound s0 (fun _ => true) (fun _ => true) 3 1000 []).2.2 (by decide)

/-! ## Claim C2 -/

/-- Claim C2: if the tree simultaneously holds a clickable permission-popup
allow element (still present when clicked) and an unvisited text-input
field, `explore_step` clicks the first popup match and performs no other
action — in particular it never acts on the input field (no set-text at
all). -/
theorem explore_step_popup_priority (s : ExplorerState)
    (aliveInfo aliveAct : ElemInfo → Bool) (now sh : Nat) (tree : List ElemInfo)
    (m : ElemInfo) (ms : List ElemInfo) (f : ElemInfo)
    (hpop : popupMatches tree = m :: ms) (halive : aliveAct m = true)
    (hf : f ∈ tree) (hfe : isEditText f = true) (hfu : sigOf f ∉ s.visited) :
    explore_step s aliveInfo aliveAct now sh tree
      = ⟨s, [DeviceAction.click m], none, false⟩ ∧
    ∀ e t, DeviceAction.setText e t ∉ (explore_step s aliveInfo aliveAct now sh tree).actions := by
  have hstep := step_popup s aliveInfo aliveAct now sh tree m ms hpop halive
  refine ⟨hstep, ?_⟩
  intro e t
  rw [hstep]
  simp

/-- Claim C2 witness: concrete tree with the allow button and an unvisited
EditText; the popup is clicked and nothing else happens. -/
theorem explore_step_popup_priority_witness :
    explore_step s0 (fun _ => true) (fun _ => true) 5 1000 [allowBtn, editEl]
      = ⟨s0, [DeviceAction.click allowBtn], none, false⟩ :=
  (explore_step_popup_priority s0 (fun _ => true) (fun _ => true) 5 1000 [allowBtn, editEl]
    allowBtn [] editEl (by decide) rfl (by decide) (by decide) (by decide)).1

/-! ## Claim C3 -/

/-- Claim C3: when none of the five element handlers can fire on the current
tree (each handler's scan completes without raising and finds no candidate)
and more than `idle_for_back_press` time units have passed since
`last_action_time`, the `explore_step` call sends exactly one "back" signal,
clears `visited_elements`, and refreshes `last_action_time` to the current
clock. -/
theorem explore_step_idle_back_clears_visited (s : ExplorerState)
    (aliveInfo aliveAct : ElemInfo → Bool) (now sh : Nat) (tree : List ElemInfo)
    (h1 : popupMatches tree = []) (h2 : editScan s aliveInfo tree = Except.ok none)
    (h3 : bottomNavScan s aliveInfo sh tree = Except.ok none)
    (h4 : tabScan s aliveInfo tree = Except.ok none)
    (h5 : generalScan s aliveInfo sh tree = Except.ok none)
    (hidle : s.idleForBackPress < now - s.lastActionTime) :
    explore_step s aliveInfo aliveAct now sh tree
      = ⟨⟨∅, now, s.idleForBackPress⟩, [DeviceAction.back], none, false⟩ :=
  step_idle s aliveInfo aliveAct now sh tree h1 h2 h3 h4 h5 hidle

/-- Claim C3 witness: empty tree, idle for 16 > 15 time units: back is
pressed, the visited set is empty afterwards, and the timestamp is 16. -/
theorem explore_step_idle_back_clears_visited_witness :
    explore_step s0 (fun _ => true) (fun _ => true) 16 1000 []
      = ⟨⟨∅, 16, 15⟩, [DeviceAction.back], none, false⟩ :=
  explore_step_idle_back_clears_visited s0 (fun _ => true) (fun _ => true) 16 1000 []
    (by decide) (by decide) (by decide) (by decide) (by decide) (by decide)

/-! ## Claim C8 -/

/-- Claim C8 counterexample: the permission-popup click of handler 1 leaves
the engine state completely unchanged — in particular `last_action_time`
stays 0 while the click happens at time 5, contradicting the claim that
every successful action (including the popup click) updates the
timestamp. -/
theorem popup_click_leaves_state_unchanged :
    (explore_step s0 (fun _ => true) (fun _ => true) 5 1000 [allowBtn]).actions
      = [DeviceAction.click allowBtn] ∧
    (explore_step s0 (fun _ => true) (fun _ => true) 5 1000 [allowBtn]).state = s0 := by
  constructor
  · decide
  · decide

/-- Claim C8 (amended): a successful `_perform_action` (the action path of
handlers 2–5) refreshes `last_action_time` and inserts the acted-on
signature into `visited_elements`; handler 1's popup click updates neither
(the state is returned unchanged); and the idle-fallback branch clears
`visited_elements` while refreshing the timestamp. -/
theorem action_state_update_policy (s : ExplorerState)
    (aliveInfo aliveAct : ElemInfo → Bool) (now sh : Nat) (tree : List ElemInfo)
    (el m : ElemInfo) (ms : List ElemInfo) (ty : PyActionType) (txt : Option String) :
    ((performAction s aliveInfo aliveAct now el ty txt).ok = true →
      (performAction s aliveInfo aliveAct now el ty txt).state.lastActionTime = now ∧
      sigOf el ∈ (performAction s aliveInfo aliveAct now el ty txt).state.visited) ∧
    (popupMatches tree = m :: ms → aliveAct m = true →
      handleSystemPopups s aliveAct tree = ⟨true, s, [DeviceAction.click m], false⟩) ∧
    (popupMatches tree = [] → editScan s aliveInfo tree = Except.ok none →
      bottomNavScan s aliveInfo sh tree = Except.ok none →
      tabScan s aliveInfo tree = Except.ok none →
      generalScan s aliveInfo sh tree = Except.ok none →
      s.idleForBackPress < now - s.lastActionTime →
      (explore_step s aliveInfo aliveAct now sh tree).state.visited = ∅ ∧
      (explore_step s aliveInfo aliveAct now sh tree).state.lastActionTime = now) := by
  refine ⟨performAction_ok s aliveInfo aliveAct now el ty txt,
    hsp_fires s aliveAct tree m ms, ?_⟩
  intro h1 h2 h3 h4 h5 hidle
  rw [step_idle s aliveInfo aliveAct now sh tree h1 h2 h3 h4 h5 hidle]
  exact ⟨rfl, rfl⟩

/-- Claim C8 witness: a successful click through `_perform_action` at time 7
sets the timestamp to 7 and marks the element's signature visited. -/
theorem action_state_update_policy_witness :
    (performAction s0 (fun _ => true) (fun _ => true) 7 okBtn
      PyActionType.click none).state.lastActionTime = 7 ∧
    sigOf okBtn ∈ (performAction s0 (fun _ => true) (fun _ => true) 7 okBtn
      PyActionType.click none).state.visited :=
  (action_state_update_policy s0 (fun _ => true) (fun _ => true) 7 1000 [] okBtn okBtn []
    PyActionType.click none).1 (by decide)

/-! ## Claim C9 -/

/-- Claim C9 counterexample: when the unvisited input field found by handler
2 has disappeared (stale for the unguarded `element.info` signature read on
line 119 of AutoExplorer.py and for the bare `el.click()` on line 127, both
outside any try/except), the `UiObjectNotFoundError` escapes `explore_step`
instead of degrading to a no-op. -/
theorem input_focus_click_raises_on_stale :
    (explore_step s0 (fun _ => false) (fun _ => false) 0 1000 [editEl]).raised = true := by
  decide

/-- Claim C9 (amended): the no-op guarantee holds only inside
`_perform_action` and only for an element that goes stale between the
signature read and the exists-check/click: there the call returns False with
the state unchanged and no action issued.  An element already stale at the
signature read (`element.info`, line 87, outside the try/except) raises
`UiObjectNotFoundError` out of `_perform_action`; and the unguarded
per-element `info` reads of the handler scans raise out of `explore_step` —
e.g. a tree with no popup match whose input-field scan hits a stale
EditText. -/
theorem stale_element_handling (s : ExplorerState)
    (aliveInfo aliveAct : ElemInfo → Bool) (now sh : Nat) (tree : List ElemInfo)
    (el : ElemInfo) (ty : PyActionType) (txt : Option String) :
    (aliveInfo el = true → aliveAct el = false →
      performAction s aliveInfo aliveAct now el ty txt = ⟨false, s, [], false⟩) ∧
    (aliveInfo el = false →
      performAction s aliveInfo aliveAct now el ty txt = ⟨false, s, [], true⟩) ∧
    (popupMatches tree = [] → editScan s aliveInfo tree = Except.error () →
      (explore_step s aliveInfo aliveAct now sh tree).raised = true) :=
  ⟨fun hinfo hact => performAction_noop s aliveInfo aliveAct now el ty txt hinfo hact,
   performAction_info_raise s aliveInfo aliveAct now el ty txt,
   step_raise_input s aliveInfo aliveAct now sh tree⟩

/-- Claim C9 witness: an element alive at signature-read time but stale at
click time is a no-op through `_perform_action`, concretely. -/
theorem stale_element_handling_witness :
    performAction s0 (fun _ => true) (fun _ => false) 3 okBtn PyActionType.click none
      = ⟨false, s0, [], false⟩ :=
  (stale_element_handling s0 (fun _ => true) (fun _ => false) 3 1000 [] okBtn
    PyActionType.click none).1 rfl rfl

/-! ## Helper lemmas: UiChangeMonitor -/

theorem monitorTick_steady (a : String) (st : MonState) (ok : Bool)
    (hst : st.lastUiHash = some a) : monitorTick st (some a) ok = st := by
  unfold monitorTick
  by_cases ha : a = ("")
  · simp [ha]
  · simp [ha, hst]

theorem monitorTicks_steady (a : String) (l : List (Option String × Bool))
    (st : MonState) (hst : st.lastUiHash = some a) (hl : ∀ x ∈ l, x.1 = some a) :
    l.foldl (fun st t => monitorTick st t.1 t.2) st = st := by
  induction l with
  | nil => rfl
  | cons x t ih =>
    have hx : x.1 = some a := hl x (by simp)
    simp only [List.foldl_cons, hx, monitorTick_steady a st x.2 hst]
    exact ih (fun y hy => hl y (by simp [hy]))

theorem monitorTick_change (st : MonState) (h : String) (hne : h ≠ (""))
    (hch : some h ≠ st.lastUiHash) :
    monitorTick st (some h) true
      = ⟨some h, st.screenshots ++ [("change_") ++ toString st.screenshots.length]⟩ := by
  unfold monitorTick takeScreenshotIfNeeded
  simp [hne, hch]

/-! ## Claim C4 -/

/-- Claim C4 counterexample: a run whose fingerprint sequence is a, a, b —
one change, at tick 3, never afterwards, all captures succeeding — produces
three screenshots, not two: the "initial" one, the capture of the very
first tick (no fingerprint is stored yet, so `current != last` holds), and
the change capture. -/
theorem monitorRun_single_change_three_screenshots :
    (monitorRun 2 true [(some ("a"), true), (some ("a"), true), (some ("b"), true)]).screenshots
      = [("initial"), ("change_1"), ("change_2")] := by
  decide

/-- Claim C4 (amended): for every polling interval I, a monitored sequence
whose fingerprint is constant at a for the first n ≥ 1 ticks and then
constant at b ≠ a (the single change, at tick n+1 ≥ 2), with every capture
succeeding, yields exactly three screenshots: initial, first-tick capture,
and one change capture. -/
theorem monitorRun_capture_count (I : Nat) (a b : String) (n m : Nat)
    (ha : a ≠ ("")) (hb : b ≠ ("")) (hab : a ≠ b) (hn : 1 ≤ n) (hm : 1 ≤ m) :
    (monitorRun I true
      (List.replicate n (some a, true) ++ List.replicate m (some b, true))).screenshots.length
      = 3 := by
  obtain ⟨n', rfl⟩ : ∃ k, n = k + 1 := ⟨n - 1, by omega⟩
  obtain ⟨m', rfl⟩ : ∃ k, m = k + 1 := ⟨m - 1, by omega⟩
  have hinit : takeScreenshotIfNeeded ("initial") true (⟨none, []⟩ : MonState)
      = ⟨none, [("initial")]⟩ := by decide
  simp only [monitorRun]
  rw [hinit, List.replicate_succ, List.cons_append, List.foldl_cons]
  rw [monitorTick_change ⟨none, [("initial")]⟩ a ha (by simp)]
  rw [List.foldl_append]
  rw [monitorTicks_steady a (List.replicate n' (some a, true)) _ rfl
    (fun x hx => by rw [List.eq_of_mem_replicate hx])]
  rw [List.replicate_succ, List.foldl_cons]
  rw [monitorTick_change _ b hb (by simp [Ne.symm hab])]
  rw [monitorTicks_steady b (List.replicate m' (some b, true)) _ rfl
    (fun x hx => by rw [List.eq_of_mem_replicate hx])]
  simp

/-- Claim C4 witness: a concrete instance of the amended capture count. -/
theorem monitorRun_capture_count_witness :
    (monitorRun 7 true
      (List.replicate 2 (some ("x"), true) ++ List.replicate 2 (some ("y"), true))).screenshots.length
      = 3 :=
  monitorRun_capture_count 7 ("x") ("y") 2 2 (by decide) (by decide)
    (by decide) (by decide) (by decide)

/-! ## Claim C10 -/

/-- Claim C10: on a tick that sees a changed (truthy) fingerprint but whose
screenshot capture fails, nothing is appended to the screenshot list while
`last_ui_hash` is still updated to the new value; consequently all later
ticks seeing that same fingerprint capture nothing — the change is never
re-captured. -/
theorem monitor_failed_capture_updates_hash (st : MonState) (h : String)
    (hne : h ≠ ("")) (hch : some h ≠ st.lastUiHash) :
    monitorTick st (some h) false = ⟨some h, st.screenshots⟩ ∧
    ∀ oks : List Bool,
      ((oks.map (fun ok => ((some h : Option String), ok))).foldl
        (fun st t => monitorTick st t.1 t.2) ⟨some h, st.screenshots⟩)
        = ⟨some h, st.screenshots⟩ := by
  constructor
  · obtain ⟨lh, shots⟩ := st
    unfold monitorTick takeScreenshotIfNeeded
    simp_all
  · intro oks
    refine monitorTicks_steady h _ _ rfl ?_
    intro x hx
    simp only [List.mem_map] at hx
    obtain ⟨ok, _, rfl⟩ := hx
    rfl

/-- Claim C10 witness: concrete failed capture on a changed hash. -/
theorem monitor_failed_capture_updates_hash_witness :
    monitorTick ⟨some ("a"), [("initial")]⟩ (some ("b")) false
      = ⟨some ("b"), [("initial")]⟩ ∧
    (([true, false].map (fun ok => ((some ("b") : Option String), ok))).foldl
      (fun st t => monitorTick st t.1 t.2) ⟨some ("b"), [("initial")]⟩)
      = ⟨some ("b"), [("initial")]⟩ := by
  have hg := monitor_failed_capture_updates_hash ⟨some ("a"), [("initial")]⟩
    ("b") (by decide) (by decide)
  exact ⟨hg.1, hg.2 [true, false]⟩

/-! ## Helper lemmas: mitm correlator -/

theorem resolveFirst_respects (url : String) (rd : RespData) (flows : List FlowEntry) :
    List.Forall₂ (fun old new => old.request = new.request ∧
      (old.response.isSome = true → new = old)) flows (resolveFirst url rd flows) := by
  induction flows with
  | nil => exact List.Forall₂.nil
  | cons e t ih =>
    unfold resolveFirst
    by_cases hc : (e.request.url == url && e.response.isNone) = true
    · rw [if_pos hc]
      refine List.Forall₂.cons ⟨rfl, ?_⟩
        (List.forall₂_same.mpr (fun x _ => ⟨rfl, fun _ => rfl⟩))
      intro hs
      have h2 := (Bool.and_eq_true _ _).mp hc |>.2
      rw [Option.isNone_iff_eq_none] at h2
      rw [h2] at hs
      simp at hs
    · rw [if_neg hc]
      exact List.Forall₂.cons ⟨rfl, fun _ => rfl⟩ ih

theorem mitmResponseHook_respects (url host : String) (p : Option RespPayload)
    (flows : List FlowEntry) :
    List.Forall₂ (fun old new => old.request = new.request ∧
      (old.response.isSome = true → new = old)) flows
      (mitmResponseHook url host p flows) := by
  unfold mitmResponseHook
  split_ifs with hex
  · exact List.forall₂_same.mpr (fun x _ => ⟨rfl, fun _ => rfl⟩)
  · exact resolveFirst_respects url (mkRespData p) flows

theorem resolveFirst_requests (url : String) (rd : RespData) (flows : List FlowEntry) :
    (resolveFirst url rd flows).map (fun e => e.request)
      = flows.map (fun e => e.request) := by
  induction flows with
  | nil => rfl
  | cons e t ih =>
    unfold resolveFirst
    split_ifs <;> simp [ih]

theorem mitmProcess_all_not_excluded (events : List MitmEvent) (flows : List FlowEntry)
    (hf : (flows.map (fun e => e.request)).all (fun r => ! excludedHost r.host) = true) :
    ((events.foldl mitmProcessEvent flows).map (fun e => e.request)).all
      (fun r => ! excludedHost r.host) = true := by
  induction events generalizing flows with
  | nil => exact hf
  | cons ev evs ih =>
    rw [List.foldl_cons]
    apply ih
    cases ev with
    | req r =>
      simp only [mitmProcessEvent, mitmRequestHook]
      split_ifs with hex
      · exact hf
      · simp only [List.map_append, List.all_append]
        simp_all
    | resp u h p =>
      simp only [mitmProcessEvent, mitmResponseHook]
      split_ifs with hex
      · exact hf
      · rw [resolveFirst_requests]
        exact hf

/-! ## Claim C5 -/

/-- Claim C5: with requests R1(url A) then R2(url B) observed in order, the
response for url B resolves R2 while R1 stays pending; the later response
for url A resolves R1; the final record order is R1 (resolved) then R2
(resolved); and every response event preserves each record's request and
never modifies a record that is already resolved (a record transitions at
most once from pending to resolved). -/
theorem mitm_correlator_pairing :
    mitmProcessEvents [MitmEvent.req R1, MitmEvent.req R2,
      MitmEvent.resp ("B") ("other.org") (some pB)]
      = [⟨R1, none⟩, ⟨R2, some (RespData.data 200 [] ("okB"))⟩] ∧
    mitmProcessEvents [MitmEvent.req R1, MitmEvent.req R2,
      MitmEvent.resp ("B") ("other.org") (some pB),
      MitmEvent.resp ("A") ("example.com") (some pA)]
      = [⟨R1, some (RespData.data 404 [] ("okA"))⟩,
         ⟨R2, some (RespData.data 200 [] ("okB"))⟩] ∧
    ∀ (url host : String) (payload : Option RespPayload) (flows : List FlowEntry),
      List.Forall₂ (fun old new => old.request = new.request ∧
        (old.response.isSome = true → new = old)) flows
        (mitmResponseHook url host payload flows) :=
  ⟨by decide, by decide, mitmResponseHook_respects⟩

/-- Claim C5 witness: the resolved-records-are-never-modified invariant at a
concrete resolved record. -/
theorem mitm_correlator_pairing_witness :
    List.Forall₂ (fun old new => old.request = new.request ∧
      (old.response.isSome = true → new = old))
      [(⟨R1, some RespData.noResponse⟩ : FlowEntry)]
      (mitmResponseHook ("A") ("example.com") none
        [⟨R1, some RespData.noResponse⟩]) :=
  mitm_correlator_pairing.2.2 ("A") ("example.com") none
    [⟨R1, some RespData.noResponse⟩]

/-! ## Claim C6 -/

/-- Claim C6: a request whose host contains "ldmnq.com" creates no flow
record; a response event whose host contains "ldmnq.com" modifies nothing;
and consequently, for every event stream, no record in the resulting flow
list has a host containing that substring. -/
theorem mitm_exclusion :
    (∀ (r : MitmRequest) (flows : List FlowEntry),
      excludedHost r.host = true → mitmRequestHook r flows = flows) ∧
    (∀ (url host : String) (payload : Option RespPayload) (flows : List FlowEntry),
      excludedHost host = true → mitmResponseHook url host payload flows = flows) ∧
    (∀ events : List MitmEvent,
      ((mitmProcessEvents events).map (fun e => e.request)).all
        (fun r => ! excludedHost r.host) = true) := by
  refine ⟨?_, ?_, ?_⟩
  · intro r flows h
    simp [mitmRequestHook, h]
  · intro u h p flows hex
    simp [mitmResponseHook, hex]
  · intro events
    exact mitmProcess_all_not_excluded events [] (by decide)

/-- Claim C6 witness: dropping a concrete excluded request and response, and
the no-excluded-host invariant on a concrete stream. -/
theorem mitm_exclusion_witness :
    mitmRequestHook rex [] = [] ∧
    mitmResponseHook ("http://x.ldmnq.com/a") ("x.ldmnq.com") none [] = [] ∧
    ((mitmProcessEvents [MitmEvent.req rex, MitmEvent.req R1]).map
      (fun e => e.request)).all (fun r => ! excludedHost r.host) = true :=
  ⟨mitm_exclusion.1 rex [] (by decide),
   mitm_exclusion.2.1 ("http://x.ldmnq.com/a") ("x.ldmnq.com") none [] (by decide),
   mitm_exclusion.2.2 [MitmEvent.req rex, MitmEvent.req R1]⟩

/-! ## Helper lemmas: fingerprinter scan functions -/

theorem dropLit_length (ps : List Char) :
    ∀ l r : List Char, dropLit ps l = some r → r.length + ps.length = l.length := by
  induction ps with
  | nil =>
    intro l r h
    simp only [dropLit, Option.some.injEq] at h
    simp [h]
  | cons p ps ih =>
    intro l r h
    cases l with
    | nil => simp [dropLit] at h
    | cons c cs =>
      simp only [dropLit] at h
      split at h
      · have := ih cs r h
        simp only [List.length_cons]
        omega
      · exact absurd h (by simp)

theorem matchColonDD_length :
    ∀ l r : List Char, matchColonDD l = some r → r.length + 4 = l.length := by
  intro l r h
  rcases l with _ | ⟨c1, _ | ⟨c2, _ | ⟨c3, _ | ⟨c4, rest⟩⟩⟩⟩
  · simp [matchColonDD] at h
  · simp [matchColonDD] at h
  · simp [matchColonDD] at h
  · simp [matchColonDD] at h
  · simp only [matchColonDD] at h
    split at h
    · simp only [Option.some.injEq] at h
      subst h
      simp
    · exact absurd h (by simp)

theorem matchClockTail_length :
    ∀ l r : List Char, matchClockTail l = some r → r.length < l.length := by
  intro l r h
  cases l with
  | nil => simp [matchClockTail] at h
  | cons d1 l1 =>
    cases l1 with
    | nil =>
      simp only [matchClockTail] at h
      split at h <;> simp_all
    | cons d2 l2 =>
      simp only [matchClockTail] at h
      by_cases h1 : d1.isDigit = true
      · rw [if_pos h1] at h
        by_cases h2 : d2.isDigit = true
        · rw [if_pos h2] at h
          cases hm : matchColonDD l2 with
          | some r1 =>
            rw [hm] at h
            simp only [Option.some.injEq] at h
            subst h
            have := matchColonDD_length l2 r1 hm
            simp only [List.length_cons]
            omega
          | none =>
            rw [hm] at h
            have := matchColonDD_length (d2 :: l2) r h
            simp only [List.length_cons] at this ⊢
            omega
        · rw [if_neg h2] at h
          have := matchColonDD_length (d2 :: l2) r h
          simp only [List.length_cons] at this ⊢
          omega
      · rw [if_neg h1] at h
        exact absurd h (by simp)

theorem tryMatchClock_length :
    ∀ l r : List Char, tryMatchClock l = some r → r.length < l.length := by
  intro l r h
  unfold tryMatchClock at h
  cases hd : dropLit clockLit l with
  | none => rw [hd] at h; simp at h
  | some r1 =>
    rw [hd] at h
    have h6 := dropLit_length clockLit l r1 hd
    have hlt := matchClockTail_length r1 r h
    have hc6 : clockLit.length = 6 := rfl
    omega

theorem matchDescValue_length :
    ∀ l r : List Char, matchDescValue l = some r → r.length < l.length := by
  intro l
  induction l with
  | nil => intro r h; simp [matchDescValue] at h
  | cons c rest ih =>
    intro r h
    simp only [matchDescValue] at h
    by_cases h1 : c = dq
    · rw [if_pos h1] at h
      simp only [Option.some.injEq] at h
      subst h
      simp
    · rw [if_neg h1] at h
      by_cases h2 : c = '\n'
      · rw [if_pos h2] at h; simp at h
      · rw [if_neg h2] at h
        have := ih r h
        simp only [List.length_cons]
        omega

theorem tryMatchDesc_length :
    ∀ l r : List Char, tryMatchDesc l = some r → r.length < l.length := by
  intro l r h
  unfold tryMatchDesc at h
  cases hd : dropLit descLit l with
  | none => rw [hd] at h; simp at h
  | some r1 =>
    rw [hd] at h
    have h14 := dropLit_length descLit l r1 hd
    have hlt := matchDescValue_length r1 r h
    have hc14 : descLit.length = 14 := rfl
    omega

theorem subClockF_adequate : ∀ (f1 : Nat) (l : List Char) (f2 : Nat),
    l.length ≤ f1 → l.length ≤ f2 → subClockF f1 l = subClockF f2 l := by
  intro f1
  induction f1 with
  | zero =>
    intro l f2 h1 _
    have hl : l = [] := List.length_eq_zero.mp (Nat.le_zero.mp h1)
    subst hl
    simp [subClockF]
  | succ f1 ih =>
    intro l f2 h1 h2
    cases l with
    | nil => simp [subClockF]
    | cons c rest =>
      cases f2 with
      | zero => exact absurd h2 (by simp)
      | succ f2 =>
        simp only [subClockF]
        cases hm : tryMatchClock (c :: rest) with
        | some r =>
          have hlt := tryMatchClock_length (c :: rest) r hm
          simp only [List.length_cons] at h1 h2 hlt
          exact ih r f2 (by omega) (by omega)
        | none =>
          simp only [List.length_cons] at h1 h2
          rw [ih rest f2 (by omega) (by omega)]

theorem subDescF_adequate : ∀ (f1 : Nat) (l : List Char) (f2 : Nat),
    l.length ≤ f1 → l.length ≤ f2 → subDescF f1 l = subDescF f2 l := by
  intro f1
  induction f1 with
  | zero =>
    intro l f2 h1 _
    have hl : l = [] := List.length_eq_zero.mp (Nat.le_zero.mp h1)
    subst hl
    simp [subDescF]
  | succ f1 ih =>
    intro l f2 h1 h2
    cases l with
    | nil => simp [subDescF]
    | cons c rest =>
      cases f2 with
      | zero => exact absurd h2 (by simp)
      | succ f2 =>
        simp only [subDescF]
        cases hm : tryMatchDesc (c :: rest) with
        | some r =>
          have hlt := tryMatchDesc_length (c :: rest) r hm
          simp only [List.length_cons] at h1 h2 hlt
          exact ih r f2 (by omega) (by omega)
        | none =>
          simp only [List.length_cons] at h1 h2
          rw [ih rest f2 (by omega) (by omega)]

theorem subClock_cons_none (c : Char) (l : List Char)
    (h : tryMatchClock (c :: l) = none) : subClock (c :: l) = c :: subClock l := by
  simp only [subClock, List.length_cons, subClockF, h]

theorem subClock_cons_some (c : Char) (l r : List Char)
    (h : tryMatchClock (c :: l) = some r) : subClock (c :: l) = subClock r := by
  have hlt := tryMatchClock_length (c :: l) r h
  simp only [List.length_cons] at hlt
  simp only [subClock, List.length_cons, subClockF, h]
  exact subClockF_adequate l.length r r.length (by omega) (le_refl _)

theorem subDesc_cons_none (c : Char) (l : List Char)
    (h : tryMatchDesc (c :: l) = none) : subDesc (c :: l) = c :: subDesc l := by
  simp only [subDesc, List.length_cons, subDescF, h]

theorem subDesc_cons_some (c : Char) (l r : List Char)
    (h : tryMatchDesc (c :: l) = some r) : subDesc (c :: l) = subDesc r := by
  have hlt := tryMatchDesc_length (c :: l) r h
  simp only [List.length_cons] at hlt
  simp only [subDesc, List.length_cons, subDescF, h]
  exact subDescF_adequate l.length r r.length (by omega) (le_refl _)

theorem tryMatchClock_cons_ne (c : Char) (l : List Char) (h : ¬ c = 't') :
    tryMatchClock (c :: l) = none := by
  simp [tryMatchClock, clockLit, dropLit, h]

theorem tryMatchClock_t_ne (c2 : Char) (l : List Char) (h : ¬ c2 = 'e') :
    tryMatchClock ('t' :: c2 :: l) = none := by
  simp [tryMatchClock, clockLit, dropLit, h]

theorem tryMatchClock_te_ne (c3 : Char) (l : List Char) (h : ¬ c3 = 'x') :
    tryMatchClock ('t' :: 'e' :: c3 :: l) = none := by
  simp [tryMatchClock, clockLit, dropLit, h]

theorem tryMatchClock_no_eq (l : List Char) (h : ('=' : Char) ∉ l.take 5) :
    tryMatchClock l = none := by
  rcases l with _ | ⟨c1, _ | ⟨c2, _ | ⟨c3, _ | ⟨c4, _ | ⟨c5, rest⟩⟩⟩⟩⟩
  · rfl
  · simp [tryMatchClock, clockLit, dropLit, ite_self]
  · simp [tryMatchClock, clockLit, dropLit, ite_self]
  · simp [tryMatchClock, clockLit, dropLit, ite_self]
  · simp [tryMatchClock, clockLit, dropLit, ite_self]
  · simp only [tryMatchClock, clockLit, dropLit]
    split_ifs with h1 h2 h3 h4 h5 <;> try rfl
    exfalso
    subst h5
    simp at h

theorem matchDescValue_append (v tl : List Char)
    (hv : ∀ ch ∈ v, ¬ ch = dq ∧ ¬ ch = '\n') :
    matchDescValue (v ++ dq :: tl) = some tl := by
  induction v with
  | nil => simp [matchDescValue]
  | cons c t ih =>
    have hc := hv c (List.mem_cons_self c t)
    rw [List.cons_append]
    simp only [matchDescValue]
    rw [if_neg hc.1, if_neg hc.2]
    exact ih (fun ch hch => hv ch (List.mem_cons_of_mem _ hch))

theorem tryMatchDesc_cons_ne (c : Char) (l : List Char) (h : ¬ c = 'c') :
    tryMatchDesc (c :: l) = none := by
  simp [tryMatchDesc, descLit, dropLit, h]

theorem dropLit_self (ps r : List Char) : dropLit ps (ps ++ r) = some r := by
  induction ps with
  | nil => rfl
  | cons p pt ih => simp [dropLit, ih]

theorem dropLit_struct : ∀ (ps l r : List Char), dropLit ps l = some r → l = ps ++ r := by
  intro ps
  induction ps with
  | nil =>
    intro l r h
    cases h
    rfl
  | cons p pt ih =>
    intro l r h
    cases l with
    | nil => cases h
    | cons c cs =>
      simp only [dropLit] at h
      split_ifs at h with hc
      rw [hc, ih cs r h]
      rfl

theorem matchColonDD_struct : ∀ (l r : List Char), matchColonDD l = some r →
    ∃ e f, e.isDigit = true ∧ f.isDigit = true ∧ l = ':' :: e :: f :: dq :: r := by
  intro l r h
  rcases l with _ | ⟨c1, _ | ⟨c2, _ | ⟨c3, _ | ⟨c4, rest⟩⟩⟩⟩
  · simp [matchColonDD] at h
  · simp [matchColonDD] at h
  · simp [matchColonDD] at h
  · simp [matchColonDD] at h
  · simp only [matchColonDD] at h
    split_ifs at h with hc
    obtain ⟨h1, h2, h3, h4⟩ := hc
    injection h with hr
    exact ⟨c2, c3, h2, h3, by rw [h1, h4, hr]⟩

theorem matchClockTail_struct : ∀ (l r : List Char), matchClockTail l = some r →
    (∃ a b e f, a.isDigit = true ∧ b.isDigit = true ∧ e.isDigit = true ∧
      f.isDigit = true ∧ l = a :: b :: ':' :: e :: f :: dq :: r) ∨
    (∃ a e f, a.isDigit = true ∧ e.isDigit = true ∧ f.isDigit = true ∧
      l = a :: ':' :: e :: f :: dq :: r) := by
  intro l r h
  cases l with
  | nil => simp [matchClockTail] at h
  | cons d1 l1 =>
    cases l1 with
    | nil =>
      simp only [matchClockTail] at h
      split_ifs at h <;> simp_all
    | cons d2 l2 =>
      simp only [matchClockTail] at h
      split_ifs at h with h1 h2
      · cases hm : matchColonDD l2 with
        | some r2 =>
          rw [hm] at h
          injection h with hr
          obtain ⟨e, f, he, hf, hl2⟩ := matchColonDD_struct l2 r2 hm
          left
          exact ⟨d1, d2, e, f, h1, h2, he, hf, by rw [hl2, hr]⟩
        | none =>
          rw [hm] at h
          obtain ⟨e, f, he, hf, hl1⟩ := matchColonDD_struct (d2 :: l2) r h
          right
          exact ⟨d1, e, f, h1, he, hf, by rw [hl1]⟩
      · obtain ⟨e, f, he, hf, hl1⟩ := matchColonDD_struct (d2 :: l2) r h
        right
        exact ⟨d1, e, f, h1, he, hf, by rw [hl1]⟩

theorem clockChar_of_digit (c : Char) (h : c.isDigit = true) : clockChar c :=
  Or.inr (Or.inr (Or.inr (Or.inr (Or.inr (Or.inr h)))))

theorem tm_shape2 (a b e f : Char) (ha : a.isDigit = true) (hb : b.isDigit = true)
    (he : e.isDigit = true) (hf : f.isDigit = true) (rest : List Char) :
    tryMatchClock (clockLit ++ a :: b :: ':' :: e :: f :: dq :: rest) = some rest := by
  simp [tryMatchClock, clockLit, dropLit, matchClockTail, matchColonDD, ha, hb, he, hf]

theorem tm_shape1 (a e f : Char) (ha : a.isDigit = true) (he : e.isDigit = true)
    (hf : f.isDigit = true) (rest : List Char) :
    tryMatchClock (clockLit ++ a :: ':' :: e :: f :: dq :: rest) = some rest := by
  simp [tryMatchClock, clockLit, dropLit, matchClockTail, matchColonDD, ha, he, hf]

theorem tryMatchClock_struct (l r : List Char) (h : tryMatchClock l = some r) :
    ∃ M, l = M ++ r ∧ M ≠ [] ∧ (∀ c ∈ M, clockChar c) ∧
      ∀ rest, tryMatchClock (M ++ rest) = some rest := by
  unfold tryMatchClock at h
  cases hd : dropLit clockLit l with
  | none =>
    rw [hd] at h
    simp at h
  | some r1 =>
    rw [hd] at h
    have hl : l = clockLit ++ r1 := dropLit_struct clockLit l r1 hd
    rcases matchClockTail_struct r1 r h with
      ⟨a, b, e, f, ha, hb, he, hf, hr1⟩ | ⟨a, e, f, ha, he, hf, hr1⟩
    · refine ⟨clockLit ++ a :: b :: ':' :: e :: f :: dq :: [], ?_, by simp [clockLit], ?_, ?_⟩
      · rw [hl, hr1]
        simp
      · intro c hc
        simp only [clockLit, List.cons_append, List.nil_append, List.mem_cons,
          List.not_mem_nil, or_false] at hc
        rcases hc with rfl | rfl | rfl | rfl | rfl | rfl | rfl | rfl | rfl | rfl | rfl | rfl
        · exact Or.inl rfl
        · exact Or.inr (Or.inl rfl)
        · exact Or.inr (Or.inr (Or.inl rfl))
        · exact Or.inl rfl
        · exact Or.inr (Or.inr (Or.inr (Or.inl rfl)))
        · exact Or.inr (Or.inr (Or.inr (Or.inr (Or.inl rfl))))
        · exact clockChar_of_digit _ ha
        · exact clockChar_of_digit _ hb
        · exact Or.inr (Or.inr (Or.inr (Or.inr (Or.inr (Or.inl rfl)))))
        · exact clockChar_of_digit _ he
        · exact clockChar_of_digit _ hf
        · exact Or.inr (Or.inr (Or.inr (Or.inr (Or.inl rfl))))
      · intro rest
        have hM : (clockLit ++ a :: b :: ':' :: e :: f :: dq :: []) ++ rest
            = clockLit ++ a :: b :: ':' :: e :: f :: dq :: rest := by simp
        rw [hM]
        exact tm_shape2 a b e f ha hb he hf rest
    · refine ⟨clockLit ++ a :: ':' :: e :: f :: dq :: [], ?_, by simp [clockLit], ?_, ?_⟩
      · rw [hl, hr1]
        simp
      · intro c hc
        simp only [clockLit, List.cons_append, List.nil_append, List.mem_cons,
          List.not_mem_nil, or_false] at hc
        rcases hc with rfl | rfl | rfl | rfl | rfl | rfl | rfl | rfl | rfl | rfl | rfl
        · exact Or.inl rfl
        · exact Or.inr (Or.inl rfl)
        · exact Or.inr (Or.inr (Or.inl rfl))
        · exact Or.inl rfl
        · exact Or.inr (Or.inr (Or.inr (Or.inl rfl)))
        · exact Or.inr (Or.inr (Or.inr (Or.inr (Or.inl rfl))))
        · exact clockChar_of_digit _ ha
        · exact Or.inr (Or.inr (Or.inr (Or.inr (Or.inr (Or.inl rfl)))))
        · exact clockChar_of_digit _ he
        · exact clockChar_of_digit _ hf
        · exact Or.inr (Or.inr (Or.inr (Or.inr (Or.inl rfl))))
      · intro rest
        have hM : (clockLit ++ a :: ':' :: e :: f :: dq :: []) ++ rest
            = clockLit ++ a :: ':' :: e :: f :: dq :: rest := by simp
        rw [hM]
        exact tm_shape1 a e f ha he hf rest

theorem subClock_match (l r : List Char) (h : tryMatchClock l = some r) :
    subClock l = subClock r := by
  cases l with
  | nil => simp [tryMatchClock, clockLit, dropLit] at h
  | cons c t => exact subClock_cons_some c t r h

theorem subDesc_match (l r : List Char) (h : tryMatchDesc l = some r) :
    subDesc l = subDesc r := by
  cases l with
  | nil => simp [tryMatchDesc, descLit, dropLit] at h
  | cons c t => exact subDesc_cons_some c t r h

theorem subClock_decomp : ∀ (n : Nat) (pre : List Char), pre.length ≤ n →
    SafePre pre → ∀ X : List Char, subClock (pre ++ X) = subClock pre ++ subClock X := by
  intro n
  induction n with
  | zero =>
    intro pre hlen hsafe X
    have h0 : pre = [] := List.eq_nil_of_length_eq_zero (Nat.le_zero.mp hlen)
    subst h0
    simp [show subClock ([] : List Char) = [] from rfl]
  | succ n ih =>
    intro pre hlen hsafe X
    cases pre with
    | nil => simp [show subClock ([] : List Char) = [] from rfl]
    | cons p pre2 =>
      rcases hsafe with h0 | ⟨p0, sep, hsep, heq⟩
      · simp at h0
      · cases hm : tryMatchClock (p :: (pre2 ++ X)) with
        | none =>
          have hm0 : tryMatchClock (p :: pre2) = none := by
            cases hm1 : tryMatchClock (p :: pre2) with
            | none => rfl
            | some r0 =>
              obtain ⟨M, hMeq, hMne, hMch, hMdet⟩ := tryMatchClock_struct (p :: pre2) r0 hm1
              have hx : tryMatchClock (p :: (pre2 ++ X)) = some (r0 ++ X) := by
                have h2 : p :: (pre2 ++ X) = M ++ (r0 ++ X) := by
                  rw [← List.append_assoc, ← hMeq]
                  rfl
                rw [h2]
                exact hMdet (r0 ++ X)
              rw [hm] at hx
              simp at hx
          have hsafe2 : SafePre pre2 := by
            cases p0 with
            | nil =>
              left
              simp only [List.nil_append] at heq
              injection heq with hq1 hq2
            | cons q p0t =>
              right
              refine ⟨p0t, sep, hsep, ?_⟩
              simp only [List.cons_append] at heq
              injection heq with hq1 hq2
          have hlen2 : pre2.length ≤ n := by
            simp only [List.length_cons] at hlen
            omega
          have hrec := ih pre2 hlen2 hsafe2 X
          rw [List.cons_append, subClock_cons_none p (pre2 ++ X) hm, hrec,
            subClock_cons_none p pre2 hm0]
          rfl
        | some r =>
          obtain ⟨M, hMeq, hMne, hMch, hMdet⟩ :=
            tryMatchClock_struct (p :: (pre2 ++ X)) r hm
          have hall : (p0 ++ [sep]) ++ X = M ++ r := by
            rw [← heq]
            exact hMeq
          have hMlen : M.length ≤ p0.length := by
            by_contra hgt
            push_neg at hgt
            have hsM : sep ∈ M := by
              have htake : M = ((p0 ++ [sep]) ++ X).take M.length := by
                rw [hall, List.take_left]
              rw [htake, List.append_assoc, List.take_append_eq_append_take]
              apply List.mem_append_right
              have hpos : M.length - p0.length = (M.length - p0.length - 1) + 1 := by
                omega
              rw [hpos, List.singleton_append, List.take_succ_cons]
              exact List.mem_cons_self _ _
            exact hsep (hMch sep hsM)
          have htk : p0.take M.length = M := by
            have h3 := congrArg (List.take M.length) hall
            rw [List.take_left] at h3
            rw [List.append_assoc, List.take_append_eq_append_take,
              Nat.sub_eq_zero_of_le hMlen] at h3
            simpa using h3
          have hdr : r = p0.drop M.length ++ ([sep] ++ X) := by
            have h4 := congrArg (List.drop M.length) hall
            rw [List.drop_left] at h4
            rw [List.append_assoc, List.drop_append_eq_append_drop,
              Nat.sub_eq_zero_of_le hMlen] at h4
            simpa using h4.symm
          have hm2 : tryMatchClock (p :: pre2) = some (p0.drop M.length ++ [sep]) := by
            have h5 : p :: pre2 = M ++ (p0.drop M.length ++ [sep]) := by
              rw [heq]
              conv_lhs => rw [← List.take_append_drop M.length p0]
              rw [htk, List.append_assoc]
            rw [h5]
            exact hMdet (p0.drop M.length ++ [sep])
          have hsafe2 : SafePre (p0.drop M.length ++ [sep]) :=
            Or.inr ⟨p0.drop M.length, sep, hsep, rfl⟩
          have hlen2 : (p0.drop M.length ++ [sep]).length ≤ n := by
            have h6 : (p :: pre2).length = (p0 ++ [sep]).length := by rw [heq]
            have h7 : 0 < M.length := List.length_pos.mpr hMne
            simp only [List.length_cons, List.length_append, List.length_drop,
              List.length_singleton] at h6 ⊢
            simp only [List.length_cons] at hlen
            omega
          have hrec := ih (p0.drop M.length ++ [sep]) hlen2 hsafe2 X
          rw [List.cons_append, subClock_cons_some p (pre2 ++ X) r hm,
            subClock_cons_some p pre2 (p0.drop M.length ++ [sep]) hm2,
            hdr, ← List.append_assoc]
          exact hrec

theorem subClock_append_decomp (pre : List Char) (h : SafePre pre) (X : List Char) :
    subClock (pre ++ X) = subClock pre ++ subClock X :=
  subClock_decomp pre.length pre (le_refl _) h X

theorem tryMatchClock_vtail (v R : List Char) (hv : ('=' : Char) ∉ v) :
    tryMatchClock (v ++ dq :: R) = none := by
  rcases v with _ | ⟨a, _ | ⟨b, _ | ⟨c, _ | ⟨d, _ | ⟨e, rest⟩⟩⟩⟩⟩
  · exact tryMatchClock_cons_ne dq R (by decide)
  · simp [tryMatchClock, clockLit, dropLit, ite_self, (by decide : ¬ (dq = 'e'))]
  · simp [tryMatchClock, clockLit, dropLit, ite_self, (by decide : ¬ (dq = 'x'))]
  · simp [tryMatchClock, clockLit, dropLit, ite_self, (by decide : ¬ (dq = 't'))]
  · apply tryMatchClock_no_eq
    intro hm
    have ht : ((a :: b :: c :: d :: []) ++ dq :: R).take 5
        = a :: b :: c :: d :: dq :: [] := rfl
    rw [ht] at hm
    simp only [List.mem_cons, List.not_mem_nil, or_false] at hm
    rcases hm with h | h | h | h | h
    · subst h
      exact hv (List.mem_cons_self _ _)
    · subst h
      exact hv (List.mem_cons_of_mem _ (List.mem_cons_self _ _))
    · subst h
      exact hv (List.mem_cons_of_mem _ (List.mem_cons_of_mem _ (List.mem_cons_self _ _)))
    · subst h
      exact hv (List.mem_cons_of_mem _ (List.mem_cons_of_mem _
        (List.mem_cons_of_mem _ (List.mem_cons_self _ _))))
    · exact absurd h (by decide)
  · apply tryMatchClock_no_eq
    intro hm
    have ht : ((a :: b :: c :: d :: e :: rest) ++ dq :: R).take 5
        = a :: b :: c :: d :: e :: [] := rfl
    rw [ht] at hm
    apply hv
    simp only [List.mem_cons, List.not_mem_nil, or_false] at hm
    simp only [List.mem_cons]
    tauto

theorem subClock_val_pass (v R : List Char) (hv : ('=' : Char) ∉ v) :
    subClock (v ++ dq :: R) = v ++ subClock (dq :: R) := by
  induction v with
  | nil => simp
  | cons c t ih =>
    have hm : tryMatchClock (c :: (t ++ dq :: R)) = none := by
      have hx := tryMatchClock_vtail (c :: t) R hv
      rw [List.cons_append] at hx
      exact hx
    rw [List.cons_append, subClock_cons_none c (t ++ dq :: R) hm,
      ih (fun hmem => hv (List.mem_cons_of_mem _ hmem))]
    rfl

theorem subClock_descLit_pass (T : List Char) :
    subClock (descLit ++ T) = descLit ++ subClock T := by
  show subClock ('c' :: 'o' :: 'n' :: 't' :: 'e' :: 'n' :: 't' :: '-' :: 'd' :: 'e'
    :: 's' :: 'c' :: '=' :: dq :: T) = _
  rw [subClock_cons_none _ _ (tryMatchClock_cons_ne _ _ (by decide)),
    subClock_cons_none _ _ (tryMatchClock_cons_ne _ _ (by decide)),
    subClock_cons_none _ _ (tryMatchClock_cons_ne _ _ (by decide)),
    subClock_cons_none _ _ (tryMatchClock_te_ne _ _ (by decide)),
    subClock_cons_none _ _ (tryMatchClock_cons_ne _ _ (by decide)),
    subClock_cons_none _ _ (tryMatchClock_cons_ne _ _ (by decide)),
    subClock_cons_none _ _ (tryMatchClock_t_ne _ _ (by decide)),
    subClock_cons_none _ _ (tryMatchClock_cons_ne _ _ (by decide)),
    subClock_cons_none _ _ (tryMatchClock_cons_ne _ _ (by decide)),
    subClock_cons_none _ _ (tryMatchClock_cons_ne _ _ (by decide)),
    subClock_cons_none _ _ (tryMatchClock_cons_ne _ _ (by decide)),
    subClock_cons_none _ _ (tryMatchClock_cons_ne _ _ (by decide)),
    subClock_cons_none _ _ (tryMatchClock_cons_ne _ _ (by decide)),
    subClock_cons_none _ _ (tryMatchClock_cons_ne _ _ (by decide))]
  rfl

theorem isPrefixOf_take (p : List Char) : ∀ (s : List Char), s.take p.length = p →
    List.isPrefixOf p s = true := by
  induction p with
  | nil =>
    intro s h
    cases s <;> rfl
  | cons c t ih =>
    intro s h
    cases s with
    | nil => simp at h
    | cons x xs =>
      simp only [List.length_cons, List.take_succ_cons] at h
      injection h with h1 h2
      subst h1
      simp [List.isPrefixOf, ih xs h2]

theorem tryMatchDesc_no_start (s Y : List Char) (hne : s ≠ [])
    (hpref : List.isPrefixOf descLit s = false) :
    tryMatchDesc (s ++ (descLit ++ Y)) = none := by
  cases hmd : tryMatchDesc (s ++ (descLit ++ Y)) with
  | none => rfl
  | some r =>
    exfalso
    unfold tryMatchDesc at hmd
    cases hdl : dropLit descLit (s ++ (descLit ++ Y)) with
    | none =>
      rw [hdl] at hmd
      simp at hmd
    | some r1 =>
      have heq : s ++ (descLit ++ Y) = descLit ++ r1 := dropLit_struct descLit _ r1 hdl
      have h2 : (descLit ++ r1).take 14 = descLit := by
        rw [← (by decide : descLit.length = 14), List.take_left]
      by_cases hk : 14 ≤ s.length
      · have h1 := congrArg (List.take 14) heq
        rw [List.take_append_eq_append_take, Nat.sub_eq_zero_of_le hk] at h1
        simp only [List.take_zero, List.append_nil] at h1
        rw [h2] at h1
        have hp := isPrefixOf_take descLit s
          (by rw [(by decide : descLit.length = 14)]; exact h1)
        rw [hp] at hpref
        exact Bool.noConfusion hpref
      · push_neg at hk
        have hpos : 0 < s.length := List.length_pos.mpr hne
        have h1 := congrArg (List.take 14) heq
        rw [List.take_append_eq_append_take] at h1
        rw [h2] at h1
        have h3 : s.take 14 = s := List.take_of_length_le (by omega)
        rw [h3] at h1
        have h4 : (descLit ++ Y).take (14 - s.length) = descLit.take (14 - s.length) := by
          rw [List.take_append_eq_append_take,
            (by decide : descLit.length = 14)]
          have h40 : 14 - s.length - 14 = 0 := by omega
          rw [h40]
          simp
        rw [h4] at h1
        have h5 := congrArg (List.drop s.length) h1
        rw [List.drop_left] at h5
        have hk13 : s.length ≤ 13 := by omega
        generalize hkk : s.length = k at hpos hk13 h5
        interval_cases k <;> revert h5 <;> decide

theorem subDesc_walk : ∀ (S : List Char), listInfix descLit S = false →
    ∀ (v R : List Char), (∀ c ∈ v, ¬ c = dq ∧ ¬ c = '\n') →
    subDesc (S ++ (descLit ++ (v ++ dq :: R))) = S ++ subDesc R := by
  intro S
  induction S with
  | nil =>
    intro hS v R hv
    simp only [List.nil_append]
    have hm : tryMatchDesc (descLit ++ (v ++ dq :: R)) = some R := by
      unfold tryMatchDesc
      rw [dropLit_self]
      exact matchDescValue_append v R hv
    rw [subDesc_match _ _ hm]
  | cons c S2 ih =>
    intro hS v R hv
    simp only [listInfix, Bool.or_eq_false_iff] at hS
    have hm : tryMatchDesc ((c :: S2) ++ (descLit ++ (v ++ dq :: R))) = none :=
      tryMatchDesc_no_start (c :: S2) (v ++ dq :: R) (by simp) hS.1
    rw [List.cons_append] at hm
    rw [List.cons_append, subDesc_cons_none c (S2 ++ (descLit ++ (v ++ dq :: R))) hm,
      ih hS.2 v R hv]
    rfl

theorem normalize_clock2_ctx (pre post : List Char) (hpre : SafePre pre)
    (a b c d : Char) (ha : a.isDigit = true) (hb : b.isDigit = true)
    (hc : c.isDigit = true) (hd : d.isDigit = true) :
    normalizeUiDump ⟨pre ++ (clockAttr (a :: b :: ':' :: c :: d :: []) ++ post)⟩
      = ⟨subDesc (subClock pre ++ subClock post)⟩ := by
  unfold normalizeUiDump
  have h1 : (String.mk (pre ++ (clockAttr (a :: b :: ':' :: c :: d :: []) ++ post))).toList
      = pre ++ (clockAttr (a :: b :: ':' :: c :: d :: []) ++ post) := rfl
  rw [h1, subClock_append_decomp pre hpre]
  have h2 : clockAttr (a :: b :: ':' :: c :: d :: []) ++ post
      = clockLit ++ a :: b :: ':' :: c :: d :: dq :: post := by
    simp [clockAttr]
  rw [h2, subClock_match _ _ (tm_shape2 a b c d ha hb hc hd post)]

theorem normalize_clock1_ctx (pre post : List Char) (hpre : SafePre pre)
    (a c d : Char) (ha : a.isDigit = true) (hc : c.isDigit = true)
    (hd : d.isDigit = true) :
    normalizeUiDump ⟨pre ++ (clockAttr (a :: ':' :: c :: d :: []) ++ post)⟩
      = ⟨subDesc (subClock pre ++ subClock post)⟩ := by
  unfold normalizeUiDump
  have h1 : (String.mk (pre ++ (clockAttr (a :: ':' :: c :: d :: []) ++ post))).toList
      = pre ++ (clockAttr (a :: ':' :: c :: d :: []) ++ post) := rfl
  rw [h1, subClock_append_decomp pre hpre]
  have h2 : clockAttr (a :: ':' :: c :: d :: []) ++ post
      = clockLit ++ a :: ':' :: c :: d :: dq :: post := by
    simp [clockAttr]
  rw [h2, subClock_match _ _ (tm_shape1 a c d ha hc hd post)]

theorem normalize_desc_ctx (pre post v : List Char) (hpre : SafePre pre)
    (hv : ∀ ch ∈ v, goodDescChar ch)
    (hnd : listInfix descLit (subClock pre) = false) :
    normalizeUiDump ⟨pre ++ (descAttr v ++ post)⟩
      = ⟨subClock pre ++ subDesc (subClock post)⟩ := by
  unfold normalizeUiDump
  have h1 : (String.mk (pre ++ (descAttr v ++ post))).toList
      = pre ++ (descAttr v ++ post) := rfl
  rw [h1, subClock_append_decomp pre hpre]
  have hveq : ('=' : Char) ∉ v := fun hmem => ((hv _ hmem).2.2) rfl
  have h2 : descAttr v ++ post = descLit ++ (v ++ dq :: post) := by
    simp [descAttr]
  rw [h2, subClock_descLit_pass (v ++ dq :: post), subClock_val_pass v post hveq,
    subClock_cons_none dq post (tryMatchClock_cons_ne dq post (by decide)),
    subDesc_walk (subClock pre) hnd v (subClock post)
      (fun ch hch => ⟨(hv ch hch).1, (hv ch hch).2.1⟩)]

/-! ## Claim C7 -/

/-- Claim C7 counterexample: two dumps that differ only in an `HH:MM`
clock-pattern substring — here 10:23 versus 10:24 embedded inside a longer
`text` attribute value — normalize to distinct strings, because the regex
`text="\d{1,2}:\d{2}"` only deletes attributes whose entire value is the
clock.  `get_ui_dump_hash` is the md5 of the normalized dump, so with the
intended low-collision digest (or any injective stand-in) the two
fingerprints differ, refuting the claim. -/
theorem normalize_clock_in_text_value_not_stripped :
    (normalizeUiDump ("<node text=\"Updated 10:23\" />")
      == normalizeUiDump ("<node text=\"Updated 10:24\" />")) = false := by
  decide

/-- Claim C7 (amended): in any dump context `pre ++ attribute ++ post`
where `pre` ends in a character that cannot occur inside a clock match
(e.g. the space before the attribute) and the clock-stripped `pre` does not
end in a dangling `content-desc="` literal, the fingerprint is independent
of the digits of a whole clock-valued text attribute (`text="HH:MM"` or
`text="H:MM"`) and of the value of a content-desc attribute (for values
free of quote, newline and equals characters), for every digest function;
a clock substring that is not the entire text attribute value is not
stripped and can change the fingerprint. -/
theorem fingerprint_stable_clock_attr_and_desc (md5 : String → String)
    (pre post : List Char) (a b c d a2 b2 c2 d2 : Char) (v1 v2 : List Char)
    (hpre : SafePre pre)
    (ha : a.isDigit = true) (hb : b.isDigit = true) (hc : c.isDigit = true)
    (hd : d.isDigit = true) (ha2 : a2.isDigit = true) (hb2 : b2.isDigit = true)
    (hc2 : c2.isDigit = true) (hd2 : d2.isDigit = true)
    (hv1 : ∀ ch ∈ v1, goodDescChar ch) (hv2 : ∀ ch ∈ v2, goodDescChar ch)
    (hnd : listInfix descLit (subClock pre) = false) :
    get_ui_dump_hash md5 ⟨pre ++ (clockAttr (a :: b :: ':' :: c :: d :: []) ++ post)⟩
      = get_ui_dump_hash md5 ⟨pre ++ (clockAttr (a2 :: b2 :: ':' :: c2 :: d2 :: []) ++ post)⟩ ∧
    get_ui_dump_hash md5 ⟨pre ++ (clockAttr (a :: ':' :: c :: d :: []) ++ post)⟩
      = get_ui_dump_hash md5 ⟨pre ++ (clockAttr (a2 :: b2 :: ':' :: c2 :: d2 :: []) ++ post)⟩ ∧
    get_ui_dump_hash md5 ⟨pre ++ (descAttr v1 ++ post)⟩
      = get_ui_dump_hash md5 ⟨pre ++ (descAttr v2 ++ post)⟩ := by
  unfold get_ui_dump_hash
  rw [normalize_clock2_ctx pre post hpre a b c d ha hb hc hd,
    normalize_clock2_ctx pre post hpre a2 b2 c2 d2 ha2 hb2 hc2 hd2,
    normalize_clock1_ctx pre post hpre a c d ha hc hd,
    normalize_desc_ctx pre post v1 hpre hv1 hnd,
    normalize_desc_ctx pre post v2 hpre hv2 hnd]
  exact ⟨rfl, rfl, rfl⟩

/-- Claim C7 witness: inside the context `<n ␣ ... />`, the concrete clock
values 10:23 and 22:45 as whole text attributes give the same
fingerprint. -/
theorem fingerprint_stable_clock_attr_and_desc_witness :
    get_ui_dump_hash (fun s => s)
        ⟨('<' :: 'n' :: ' ' :: []) ++ (clockAttr ('1' :: '0' :: ':' :: '2' :: '3' :: [])
          ++ ('/' :: '>' :: []))⟩
      = get_ui_dump_hash (fun s => s)
        ⟨('<' :: 'n' :: ' ' :: []) ++ (clockAttr ('2' :: '2' :: ':' :: '4' :: '5' :: [])
          ++ ('/' :: '>' :: []))⟩ :=
  (fingerprint_stable_clock_attr_and_desc (fun s => s) ('<' :: 'n' :: ' ' :: [])
    ('/' :: '>' :: []) '1' '0' '2' '3' '2' '2' '4' '5' (("Hi").toList) (("Yo").toList)
    (Or.inr ⟨'<' :: 'n' :: [], ' ', by decide, rfl⟩)
    (by decide) (by decide) (by decide) (by decide) (by decide) (by decide)
    (by decide) (by decide) (by decide) (by decide) (by decide)).1
